import Mathlib

/-!
Shallow embedding of the core engine of a cross-exchange mispricing detector
(venues "POLY" and "KALSHI") and proofs about it.

Conventions of the embedding:
* Python floats are modelled as exact rationals (`ℚ`); timestamps are rationals
  counting seconds (UTC).
* Enumerations that the code persists as strings ("WINNER_BINARY", "AUTO",
  "OPEN", ...) are modelled as `String`.
* The relational store is modelled as in-memory lists of rows; SQL
  `INSERT ... ON CONFLICT DO UPDATE` becomes an explicit update-or-append on
  the list, and `query(...).one_or_none()` becomes `List.find?`.
* `datetime.now(...)` is an explicit `now : ℚ` argument.
* The seeded random generator of the paper simulator is modelled by a list of
  pre-drawn uniform values that is threaded through the computation.
* ORM-generated primary keys (uuid4 defaults) are not part of the model except
  where the code reads them back (paper positions).
-/

namespace ArbBot

/-- Engine settings (settings.py); only the fields the modelled engine code
reads.  Python defaults: min_edge 0.008, slippage_k 0.20,
max_notional_per_event 250, depth_multiplier 1.5, min_seconds_to_start 300,
fee_poly_bps 40, fee_kalshi_bps 35. -/
structure Settings where
  min_edge : ℚ
  slippage_k : ℚ
  max_notional_per_event : ℚ
  depth_multiplier : ℚ
  min_seconds_to_start : ℚ
  fee_poly_bps : ℚ
  fee_kalshi_bps : ℚ
deriving DecidableEq

/-- Default settings values from settings.py. -/
def defaultSettings : Settings :=
  { min_edge := 8/1000
    slippage_k := 20/100
    max_notional_per_event := 250
    depth_multiplier := 3/2
    min_seconds_to_start := 300
    fee_poly_bps := 40
    fee_kalshi_bps := 35 }

/-- engine/fees.py: venue_fee_rate. -/
def venue_fee_rate (venue : String) (settings : Settings) : ℚ :=
  if venue = "POLY" then settings.fee_poly_bps / 10000
  else if venue = "KALSHI" then settings.fee_kalshi_bps / 10000
  else 0

/-- engine/fees.py: total_fee_rate. -/
def total_fee_rate (buy_venue sell_venue : String) (settings : Settings) : ℚ :=
  venue_fee_rate buy_venue settings + venue_fee_rate sell_venue settings

/-- engine/pricing.py: TICK_SIZE = 0.01. -/
def TICK_SIZE : ℚ := 1/100

/-- engine/pricing.py: Quote dataclass. -/
structure Quote where
  bid : ℚ
  ask : ℚ
  bid_size : ℚ
  ask_size : ℚ
deriving DecidableEq

/-- engine/pricing.py: EdgeComputation dataclass. -/
structure EdgeComputation where
  edge_raw : ℚ
  edge_after_costs : ℚ
  fee_component : ℚ
  slippage_component : ℚ
deriving DecidableEq

/-- engine/pricing.py: compute_edge. -/
def compute_edge (buy_quote sell_quote : Quote) (buy_venue sell_venue : String)
    (settings : Settings) : EdgeComputation :=
  let edge_raw := sell_quote.bid - buy_quote.ask
  let spread := max 0 (max (buy_quote.ask - buy_quote.bid) (sell_quote.ask - sell_quote.bid))
  let slippage := max TICK_SIZE (spread * settings.slippage_k)
  let fees := (buy_quote.ask + sell_quote.bid) * total_fee_rate buy_venue sell_venue settings
  { edge_raw := edge_raw
    edge_after_costs := edge_raw - fees - slippage
    fee_component := fees
    slippage_component := slippage }

/-- engine/pricing.py: suggested_size (math.floor is `Int.floor`). -/
def suggested_size (buy_quote sell_quote : Quote)
    (max_notional_per_event depth_multiplier : ℚ) : ℚ :=
  let visible_depth := min buy_quote.ask_size sell_quote.bid_size
  if visible_depth ≤ 0 then 0
  else
    let by_depth := visible_depth / max depth_multiplier 1
    let best_price := max buy_quote.ask (1/100)
    let by_notional := max_notional_per_event / best_price
    let raw_size := max 0 (min by_depth by_notional)
    (⌊raw_size * 10000⌋ : ℚ) / 10000

/-- models.py: OrderBookTop row (uuid primary key omitted; `ts` is the
timestamp written by the upsert). -/
structure OrderBookTop where
  venue : String
  venue_market_id : String
  outcome : String
  best_bid : ℚ
  best_ask : ℚ
  bid_size : ℚ
  ask_size : ℚ
  ts : ℚ
deriving DecidableEq

/-- Key match for the unique index (venue, venue_market_id, outcome) of
orderbook_tops. -/
def topMatches (venue venue_market_id outcome : String) (row : OrderBookTop) : Bool :=
  row.venue == venue && row.venue_market_id == venue_market_id && row.outcome == outcome

/-- The field overwrite performed by the upsert's DO UPDATE clause (key fields
are untouched). -/
def applyTopUpdate (best_bid best_ask bid_size ask_size now : ℚ) (row : OrderBookTop) :
    OrderBookTop :=
  { row with best_bid := best_bid, best_ask := best_ask, bid_size := bid_size,
             ask_size := ask_size, ts := now }

/-- Per-row action of the upsert's conflict branch: overwrite the conflicting
row, keep the others. -/
def upsertRowFun (venue venue_market_id outcome : String)
    (best_bid best_ask bid_size ask_size now : ℚ) (row : OrderBookTop) : OrderBookTop :=
  if topMatches venue venue_market_id outcome row then
    applyTopUpdate best_bid best_ask bid_size ask_size now row
  else row

/-- engine/orderbook.py: OrderBookService.upsert_top.  The SQL
`on_conflict_do_update` on the unique index is modelled as: if a row with the
key exists, overwrite its non-key fields, else append a fresh row.  `now` is
the `datetime.now` timestamp taken at call time. -/
def upsert_top (rows : List OrderBookTop) (venue venue_market_id outcome : String)
    (best_bid best_ask bid_size ask_size now : ℚ) : List OrderBookTop :=
  if rows.any (topMatches venue venue_market_id outcome) then
    rows.map (upsertRowFun venue venue_market_id outcome best_bid best_ask bid_size ask_size now)
  else
    rows ++ [⟨venue, venue_market_id, outcome, best_bid, best_ask, bid_size, ask_size, now⟩]

/-- engine/orderbook.py: OrderBookService.get_top (`one_or_none`). -/
def get_top (rows : List OrderBookTop) (venue venue_market_id outcome : String) :
    Option OrderBookTop :=
  rows.find? (topMatches venue venue_market_id outcome)

/-- Argument record for one upsert_top call (used to state properties about
arbitrary sequences of upserts). -/
structure UpsertArgs where
  venue : String
  venue_market_id : String
  outcome : String
  best_bid : ℚ
  best_ask : ℚ
  bid_size : ℚ
  ask_size : ℚ
  now : ℚ
deriving DecidableEq

/-- Apply a sequence of upsert_top calls in order. -/
def applyUpserts (ops : List UpsertArgs) (rows : List OrderBookTop) : List OrderBookTop :=
  ops.foldl (fun acc a =>
    upsert_top acc a.venue a.venue_market_id a.outcome a.best_bid a.best_ask a.bid_size a.ask_size a.now) rows

/-- ASCII lower-casing of one character, as Python str.lower acts on the ASCII
range used by the code. -/
def lowerChar (c : Char) : Char :=
  if 65 ≤ c.toNat ∧ c.toNat ≤ 90 then Char.ofNat (c.toNat + 32) else c

/-- Python str.lower (ASCII). -/
def pyLower (s : String) : String := String.mk (s.data.map lowerChar)

/-- ASCII upper-casing of one character, as Python str.upper acts on the ASCII
range used by the code. -/
def upperChar (c : Char) : Char :=
  if 97 ≤ c.toNat ∧ c.toNat ≤ 122 then Char.ofNat (c.toNat - 32) else c

/-- Python str.upper (ASCII). -/
def pyUpper (s : String) : String := String.mk (s.data.map upperChar)

/-- normalization/canonical.py: detect_market_type.  Python tests
`len(outcomes) == 2 and {"yes", "no"}.issubset(set(lowered))`; the subset test
is membership of both "yes" and "no" in the lowered list. -/
def detect_market_type (outcomes : List String) : String :=
  let lowered := outcomes.map pyLower
  if outcomes.length = 2 ∧ "yes" ∈ lowered ∧ "no" ∈ lowered then "WINNER_BINARY"
  else if outcomes.length = 3 then "WINNER_3WAY"
  else "OTHER"

/-- The fields of normalization/canonical.py's VenueMarket that the resolver's
status decision reads (the title/team/outcome fields do not enter _decision). -/
structure VenueMarketView where
  market_type : String
  start_time_utc : Option ℚ
deriving DecidableEq

/-- One manual-override row as produced by resolver.py load_overrides: a dict
with keys "status" (default "OVERRIDE" when absent) and "confidence".  The
`status` key is optional in the model to mirror `override.get("status",
"OVERRIDE")`. -/
structure OverrideRow where
  status : Option String
  confidence : ℚ
deriving DecidableEq

/-- normalization/resolver.py: _decision.  A present override dict is truthy in
Python; it is modelled as `some o`. -/
def decision (score : ℚ) (poly kalshi : VenueMarketView) (orientation_flipped : Bool)
    (override : Option OverrideRow) : String :=
  match override with
  | some o => o.status.getD "OVERRIDE"
  | none =>
    if poly.market_type = "WINNER_3WAY" ∨ kalshi.market_type = "WINNER_3WAY" then "REVIEW"
    else if poly.market_type ≠ "WINNER_BINARY" ∨ kalshi.market_type ≠ "WINNER_BINARY" then "REVIEW"
    else if orientation_flipped then "REVIEW"
    else if poly.start_time_utc = none ∨ kalshi.start_time_utc = none then "REVIEW"
    else if 86/100 ≤ score then "AUTO"
    else if 80/100 ≤ score then "REVIEW"
    else "REJECTED"

/-- paper/fills.py: FillResult dataclass. -/
structure FillResult where
  fill_price : ℚ
  filled_size : ℚ
  probability : ℚ
deriving DecidableEq

/-- paper/fills.py: simulate_limit_fill.  The `rng.random()` draw is the head
of an explicit stream of pre-drawn uniforms; the function returns the unused
remainder of the stream (a draw is consumed only on the non-crossing branch,
exactly as in the Python control flow). -/
def simulate_limit_fill (side : String) (limit_price best_bid best_ask
    displayed_depth requested_size : ℚ) (draws : List ℚ) : FillResult × List ℚ :=
  let side := pyUpper side
  let requested_size := max 0 requested_size
  if requested_size ≤ 0 ∨ displayed_depth ≤ 0 then
    (⟨limit_price, 0, 0⟩, draws)
  else if side = "BUY" then
    if best_ask ≤ limit_price then
      (⟨best_ask, min requested_size displayed_depth, 1⟩, draws)
    else
      let prob : ℚ :=
        if |limit_price - best_bid| < 1/1000000000 then 60/100
        else if best_bid < limit_price ∧ limit_price < best_ask then 12/100
        else 3/100
      let u := draws.headD 0
      (⟨limit_price, if u ≤ prob then min requested_size (displayed_depth * prob) else 0, prob⟩,
        draws.tail)
  else
    if limit_price ≤ best_bid then
      (⟨best_bid, min requested_size displayed_depth, 1⟩, draws)
    else
      let prob : ℚ :=
        if |limit_price - best_ask| < 1/1000000000 then 60/100
        else if best_bid < limit_price ∧ limit_price < best_ask then 12/100
        else 3/100
      let u := draws.headD 0
      (⟨limit_price, if u ≤ prob then min requested_size (displayed_depth * prob) else 0, prob⟩,
        draws.tail)

/-- models.py: MispricingSignal row.  `id` is the uuid primary key (the
signaler inserts rows without choosing it; the model writes "" there). -/
structure MispricingSignal where
  id : String
  canonical_event_id : String
  outcome : String
  buy_venue : String
  sell_venue : String
  buy_market_id : String
  sell_market_id : String
  buy_price : ℚ
  sell_price : ℚ
  size_suggested : ℚ
  edge_raw : ℚ
  edge_after_costs : ℚ
  confidence : ℚ
  status : String
deriving DecidableEq

/-- models.py: PaperPosition row (uuid key `id`; opened_at omitted, the
modelled code never reads it back). -/
structure PaperPosition where
  id : String
  canonical_event_id : String
  signal_id : String
  outcome : String
  buy_venue : String
  sell_venue : String
  buy_market_id : String
  sell_market_id : String
  size : ℚ
  entry_buy_price : ℚ
  entry_sell_price : ℚ
  fill_ratio : ℚ
  status : String
  closed_at : Option ℚ
  realized_pnl : ℚ
  unrealized_pnl : ℚ
deriving DecidableEq

/-- models.py: PaperFill row (uuid key and position_id foreign key omitted;
the two fills of a simulation are identified by their position in the list). -/
structure PaperFill where
  leg : String
  side : String
  limit_price : ℚ
  fill_price : ℚ
  size : ℚ
  filled_size : ℚ
  probability : ℚ
deriving DecidableEq

/-- The slice of the relational store the paper simulator reads and writes. -/
structure PaperState where
  signals : List MispricingSignal
  tops : List OrderBookTop
  positions : List PaperPosition
  fills : List PaperFill
deriving DecidableEq

/-- paper/simulator.py simulate_signal: the clamped trade size
max(0.0, min(requested ?? size_suggested, size_suggested)). -/
def simTarget (requested_size : Option ℚ) (signal : MispricingSignal) : ℚ :=
  max 0 (min (requested_size.getD signal.size_suggested) signal.size_suggested)

/-- paper/simulator.py simulate_signal: the BUY-leg fill simulation against
the buy-side top of book. -/
def simBuyFill (signal : MispricingSignal) (buy_top : OrderBookTop) (target_size : ℚ)
    (draws : List ℚ) : FillResult × List ℚ :=
  simulate_limit_fill "BUY" signal.buy_price buy_top.best_bid buy_top.best_ask
    buy_top.ask_size target_size draws

/-- paper/simulator.py simulate_signal: the SELL-leg fill simulation against
the sell-side top of book (consuming the draw stream left by the BUY leg). -/
def simSellFill (signal : MispricingSignal) (sell_top : OrderBookTop) (target_size : ℚ)
    (draws : List ℚ) : FillResult × List ℚ :=
  simulate_limit_fill "SELL" signal.sell_price sell_top.best_bid sell_top.best_ask
    sell_top.bid_size target_size draws

/-- paper/simulator.py simulate_signal: the PaperPosition row it inserts. -/
def simPosition (signal : MispricingSignal) (buy_fill sell_fill : FillResult)
    (filled_size target_size : ℚ) : PaperPosition :=
  { id := ""
    canonical_event_id := signal.canonical_event_id
    signal_id := signal.id
    outcome := signal.outcome
    buy_venue := signal.buy_venue
    sell_venue := signal.sell_venue
    buy_market_id := signal.buy_market_id
    sell_market_id := signal.sell_market_id
    size := filled_size
    entry_buy_price := buy_fill.fill_price
    entry_sell_price := sell_fill.fill_price
    fill_ratio := filled_size / target_size
    status := "OPEN"
    closed_at := none
    realized_pnl := 0
    unrealized_pnl := 0 }

/-- paper/simulator.py simulate_signal: one of the two PaperFill rows it
inserts. -/
def simFillRecord (leg : String) (limit_price : ℚ) (fr : FillResult)
    (target_size filled_size : ℚ) : PaperFill :=
  { leg := leg, side := leg, limit_price := limit_price, fill_price := fr.fill_price,
    size := target_size, filled_size := filled_size, probability := fr.probability }

/-- paper/simulator.py: PaperTradingSimulator.simulate_signal.  A raised
ValueError is `Except.error` (no store mutation happens before a raise).  On
success the returned state has the new position and its two fills appended.
`draws` is the pre-drawn uniform stream of the rng seeded from
"{signal_id}:{size}". -/
def simulate_signal (st : PaperState) (signal_id : String) (requested_size : Option ℚ)
    (draws : List ℚ) : Except String (PaperState × PaperPosition) :=
  match st.signals.find? (fun s => s.id == signal_id) with
  | none => .error "signal not found"
  | some signal =>
    let target_size := simTarget requested_size signal
    if target_size ≤ 0 then .error "size must be positive"
    else
      match get_top st.tops signal.buy_venue signal.buy_market_id signal.outcome,
            get_top st.tops signal.sell_venue signal.sell_market_id signal.outcome with
      | some buy_top, some sell_top =>
        let buyRes := simBuyFill signal buy_top target_size draws
        let sellRes := simSellFill signal sell_top target_size buyRes.2
        let filled_size := min buyRes.1.filled_size sellRes.1.filled_size
        if filled_size ≤ 0 then .error "simulated fills were zero"
        else
          let position := simPosition signal buyRes.1 sellRes.1 filled_size target_size
          .ok ({ st with positions := st.positions ++ [position],
                         fills := st.fills ++
                           [simFillRecord "BUY" signal.buy_price buyRes.1 target_size filled_size,
                            simFillRecord "SELL" signal.sell_price sellRes.1 target_size
                              filled_size] }, position)
      | _, _ => .error "orderbook unavailable for simulation"

/-- paper/simulator.py: PaperTradingSimulator.close_position.  Mutating the ORM
object is modelled as replacing the row (found by id) in the store; `now` is
the `datetime.now` value used for closed_at. -/
def close_position (st : PaperState) (position_id : String) (now : ℚ) :
    Except String (PaperState × PaperPosition) :=
  match st.positions.find? (fun p => p.id == position_id) with
  | none => .error "position not found"
  | some position =>
    if position.status = "CLOSED" then .ok (st, position)
    else
      let buy_top := get_top st.tops position.buy_venue position.buy_market_id position.outcome
      let sell_top := get_top st.tops position.sell_venue position.sell_market_id position.outcome
      let realized :=
        match buy_top, sell_top with
        | some bt, some sl =>
          (bt.best_bid - position.entry_buy_price) * position.size +
            (position.entry_sell_price - sl.best_ask) * position.size
        | _, _ => (position.entry_sell_price - position.entry_buy_price) * position.size
      let updated := { position with realized_pnl := realized, unrealized_pnl := 0,
                                     status := "CLOSED", closed_at := some now }
      .ok ({ st with positions :=
               st.positions.map (fun p => if p.id == position_id then updated else p) },
           updated)

/-- Python round(x) (banker's rounding, half to even) on an exact rational. -/
def pyRoundHalfEven (y : ℚ) : ℤ :=
  let f := ⌊y⌋
  if y - f < 1/2 then f
  else if 1/2 < y - f then f + 1
  else if f % 2 = 0 then f else f + 1

/-- Python round(x, 4). -/
def pyRound4 (x : ℚ) : ℚ := (pyRoundHalfEven (x * 10000) : ℚ) / 10000

/-- models.py: CanonicalEvent row; the signaler reads only id and
start_time_utc (non-nullable). -/
structure CanonicalEvent where
  id : String
  start_time_utc : ℚ
deriving DecidableEq

/-- models.py: MarketBinding row; fields the signaler reads. -/
structure MarketBinding where
  canonical_event_id : String
  venue : String
  venue_market_id : String
  market_type : String
  status : String
  confidence : ℚ
deriving DecidableEq

/-- The slice of the store the signaler reads. -/
structure SignalState where
  events : List CanonicalEvent
  bindings : List MarketBinding
  tops : List OrderBookTop
deriving DecidableEq

/-- engine/signaler.py: the loop body of _load_binding_pairs for one event:
bindings with the event id and status in {AUTO, OVERRIDE} are listed; the
first POLY and first KALSHI rows are taken, and both must be WINNER_BINARY. -/
def pairForEvent (st : SignalState) (event : CanonicalEvent) :
    Option (CanonicalEvent × MarketBinding × MarketBinding) :=
  let bindings := st.bindings.filter (fun b =>
    b.canonical_event_id == event.id && (b.status == "AUTO" || b.status == "OVERRIDE"))
  match bindings.find? (fun b => b.venue == "POLY"),
        bindings.find? (fun b => b.venue == "KALSHI") with
  | some poly, some kalshi =>
    if poly.market_type == "WINNER_BINARY" && kalshi.market_type == "WINNER_BINARY" then
      some (event, poly, kalshi)
    else none
  | _, _ => none

/-- engine/signaler.py: _load_binding_pairs. -/
def loadBindingPairs (st : SignalState) : List (CanonicalEvent × MarketBinding × MarketBinding) :=
  st.events.filterMap (pairForEvent st)

/-- engine/signaler.py: _get_quote, including the conservative NO-from-YES
derivation. -/
def getQuote (tops : List OrderBookTop) (venue market_id outcome : String) : Option Quote :=
  match get_top tops venue market_id outcome with
  | some top => some ⟨top.best_bid, top.best_ask, top.bid_size, top.ask_size⟩
  | none =>
    if outcome = "NO" then
      match get_top tops venue market_id "YES" with
      | some yes_top =>
        some ⟨max 0 (1 - yes_top.best_ask), max 0 (1 - yes_top.best_bid),
              yes_top.ask_size, yes_top.bid_size⟩
      | none => none
    else none

/-- engine/signaler.py: _evaluate_pair for one outcome. -/
def evaluatePair (tops : List OrderBookTop) (settings : Settings)
    (event : CanonicalEvent) (poly kalshi : MarketBinding) (outcome : String) :
    Option MispricingSignal :=
  match getQuote tops "POLY" poly.venue_market_id outcome,
        getQuote tops "KALSHI" kalshi.venue_market_id outcome with
  | some poly_quote, some kalshi_quote =>
    let a_to_b := compute_edge poly_quote kalshi_quote "POLY" "KALSHI" settings
    let b_to_a := compute_edge kalshi_quote poly_quote "KALSHI" "POLY" settings
    let chosen :=
      if b_to_a.edge_after_costs ≤ a_to_b.edge_after_costs then
        ("POLY", "KALSHI", poly.venue_market_id, kalshi.venue_market_id,
          poly_quote, kalshi_quote, a_to_b)
      else
        ("KALSHI", "POLY", kalshi.venue_market_id, poly.venue_market_id,
          kalshi_quote, poly_quote, b_to_a)
    let buy_quote := chosen.2.2.2.2.1
    let sell_quote := chosen.2.2.2.2.2.1
    let edge := chosen.2.2.2.2.2.2
    let size := suggested_size buy_quote sell_quote
      settings.max_notional_per_event settings.depth_multiplier
    if size ≤ 0 then none
    else if buy_quote.ask_size < size * settings.depth_multiplier then none
    else if sell_quote.bid_size < size * settings.depth_multiplier then none
    else if edge.edge_after_costs < settings.min_edge then none
    else
      some { id := ""
             canonical_event_id := event.id
             outcome := outcome
             buy_venue := chosen.1
             sell_venue := chosen.2.1
             buy_market_id := chosen.2.2.1
             sell_market_id := chosen.2.2.2.1
             buy_price := buy_quote.ask
             sell_price := sell_quote.bid
             size_suggested := size
             edge_raw := edge.edge_raw
             edge_after_costs := edge.edge_after_costs
             confidence := pyRound4 (min poly.confidence kalshi.confidence)
             status := "OPEN" }
  | _, _ => none

/-- engine/signaler.py: refresh_signals.  Returns the list of created signals;
pairs whose event start is strictly before now + min_seconds_to_start are
skipped by `continue`. -/
def refresh_signals (st : SignalState) (settings : Settings) (now : ℚ) :
    List MispricingSignal :=
  let earliest := now + settings.min_seconds_to_start
  (loadBindingPairs st).flatMap (fun pair =>
    if pair.1.start_time_utc < earliest then []
    else ["YES", "NO"].filterMap (evaluatePair st.tops settings pair.1 pair.2.1 pair.2.2))

/-- Lexicographic (code-point) comparison of char lists, as Python compares
strings. -/
def charListLe : List Char → List Char → Bool
  | [], _ => true
  | _ :: _, [] => false
  | a :: restA, b :: restB =>
    if a.toNat < b.toNat then true
    else if b.toNat < a.toNat then false
    else charListLe restA restB

/-- Python string comparison (code-point lexicographic). -/
def strLe (a b : String) : Bool := charListLe a.data b.data

/-- Insert into a sorted list of strings. -/
def insertSorted (x : String) : List String → List String
  | [] => [x]
  | y :: ys => if strLe x y then x :: y :: ys else y :: insertSorted x ys

/-- Python sorted(...) on strings (insertion sort; inputs here are
duplicate-free sets, so any comparison-sort agrees). -/
def sortStrings (l : List String) : List String := l.foldr insertSorted []

/-- Character class [a-z0-9] used by the fuzzy tokenizer after lower-casing. -/
def isTokenChar (c : Char) : Bool :=
  (97 ≤ c.toNat && c.toNat ≤ 122) || (48 ≤ c.toNat && c.toNat ≤ 57)

/-- Splits a char list into maximal runs of token characters (the behaviour of
re.split with pattern non-[a-z0-9]+ followed by dropping empty pieces).  `acc`
is the reversed current run. -/
def tokenizeAux : List Char → List Char → List String
  | [], acc => if acc.isEmpty then [] else [String.mk acc.reverse]
  | c :: rest, acc =>
    if isTokenChar c then tokenizeAux rest (c :: acc)
    else if acc.isEmpty then tokenizeAux rest []
    else String.mk acc.reverse :: tokenizeAux rest []

/-- normalization/fuzzy.py: _tokenize. -/
def tokenize (s : String) : List String := tokenizeAux (pyLower s).data []

/-- difflib SequenceMatcher b2j chain: indices of a character in b, ascending. -/
def indicesOf (c : Char) (b : List Char) : List Nat :=
  (List.range b.length).filter (fun j => b[j]? == some c)

/-- difflib b2j with the autojunk "popular" heuristic: when len(b) >= 200,
characters occurring more than len(b)/100 + 1 times are dropped from b2j
(isjunk is None in fuzzy.py, so there is no junk set). -/
def b2j (b : List Char) (c : Char) : List Nat :=
  let idxs := indicesOf c b
  if 200 ≤ b.length ∧ b.length / 100 + 1 < idxs.length then [] else idxs

/-- State of difflib find_longest_match's scanning loop: current best block and
the j2len dict of the previous row (absent keys map to 0). -/
structure FlmState where
  besti : Nat
  bestj : Nat
  bestsize : Nat
  j2len : Nat → Nat

/-- One inner iteration of find_longest_match for matching position j of row i;
`old` is the j2len dict of the previous row (Python reads j2len, writes
newj2len). -/
def flmProcessJ (old : Nat → Nat) (i : Nat) (s : FlmState) (j : Nat) : FlmState :=
  let k := (if j = 0 then 0 else old (j - 1)) + 1
  let s1 := { s with j2len := fun m => if m = j then k else s.j2len m }
  if s1.bestsize < k then { s1 with besti := i + 1 - k, bestj := j + 1 - k, bestsize := k }
  else s1

/-- One row (fixed i with character c = a[i]) of find_longest_match: Python
iterates the ascending index list b2j[c], skipping j < blo and stopping at
j >= bhi, which on an ascending list is a range filter. -/
def flmRow (bj : Char → List Nat) (blo bhi : Nat) (s : FlmState) (i : Nat) (c : Char) :
    FlmState :=
  let js := (bj c).filter (fun j => blo ≤ j && j < bhi)
  let old := s.j2len
  js.foldl (flmProcessJ old i) { s with j2len := fun _ => 0 }

/-- Rows i, i+1, ..., i+count-1 of find_longest_match (Python: for i in
range(alo, ahi)); calls always have ahi ≤ len(a), so the a[i]? lookup never
fails on reachable inputs. -/
def flmRows (a : List Char) (bj : Char → List Nat) (blo bhi : Nat) :
    Nat → Nat → FlmState → FlmState
  | _, 0, s => s
  | i, count + 1, s =>
    match a[i]? with
    | none => s
    | some c => flmRows a bj blo bhi (i + 1) count (flmRow bj blo bhi s i c)

/-- Equality of two optional characters (false when either is out of range). -/
def charsEq : Option Char → Option Char → Bool
  | some x, some y => x == y
  | _, _ => false

/-- difflib find_longest_match left extension while-loop (fuel-indexed; each
step decreases besti, so fuel = initial besti always suffices). -/
def extendLeft (a b : List Char) (alo blo : Nat) :
    Nat → Nat × Nat × Nat → Nat × Nat × Nat
  | 0, st => st
  | fuel + 1, (besti, bestj, bestsize) =>
    if alo < besti ∧ blo < bestj ∧ charsEq a[besti - 1]? b[bestj - 1]? = true then
      extendLeft a b alo blo fuel (besti - 1, bestj - 1, bestsize + 1)
    else (besti, bestj, bestsize)

/-- difflib find_longest_match right extension while-loop (fuel-indexed; each
step needs besti + bestsize < ahi, so fuel = ahi always suffices). -/
def extendRight (a b : List Char) (ahi bhi : Nat) :
    Nat → Nat × Nat × Nat → Nat × Nat × Nat
  | 0, st => st
  | fuel + 1, (besti, bestj, bestsize) =>
    if besti + bestsize < ahi ∧ bestj + bestsize < bhi ∧
        charsEq a[besti + bestsize]? b[bestj + bestsize]? = true then
      extendRight a b ahi bhi fuel (besti, bestj, bestsize + 1)
    else (besti, bestj, bestsize)

/-- difflib SequenceMatcher.find_longest_match(alo, ahi, blo, bhi) with
isjunk = None: the scanning loop, then the two non-junk extension loops (the
junk-extension loops are vacuous because the junk set is empty). -/
def findLongestMatch (a b : List Char) (bj : Char → List Nat) (alo ahi blo bhi : Nat) :
    Nat × Nat × Nat :=
  let s := flmRows a bj blo bhi alo (ahi - alo) ⟨alo, blo, 0, fun _ => 0⟩
  let st1 := extendLeft a b alo blo s.besti (s.besti, s.bestj, s.bestsize)
  extendRight a b ahi bhi ahi st1

/-- Total size of difflib's matching blocks on the window (alo, ahi, blo, bhi):
get_matching_blocks recursion (the queue order does not affect the sum).  Each
recursive call shrinks (ahi - alo) + (bhi - blo) by at least 2, so fuel =
len(a) + len(b) + 1 always suffices at the top level. -/
def matchesTotal (a b : List Char) (bj : Char → List Nat) :
    Nat → Nat → Nat → Nat → Nat → Nat
  | 0, _, _, _, _ => 0
  | fuel + 1, alo, ahi, blo, bhi =>
    let m := findLongestMatch a b bj alo ahi blo bhi
    let i := m.1
    let j := m.2.1
    let k := m.2.2
    if k = 0 then 0
    else
      k + (if alo < i ∧ blo < j then matchesTotal a b bj fuel alo i blo j else 0)
        + (if i + k < ahi ∧ j + k < bhi then matchesTotal a b bj fuel (i + k) ahi (j + k) bhi else 0)

/-- difflib SequenceMatcher(None, a, b).ratio() = 2*M / (len(a)+len(b)) with
the 1.0 convention for two empty sequences. -/
def seqRatio (a b : List Char) : ℚ :=
  let m := matchesTotal a b (b2j b) (a.length + b.length + 1) 0 a.length 0 b.length
  let total := a.length + b.length
  if total = 0 then 1 else 2 * (m : ℚ) / (total : ℚ)

/-- normalization/fuzzy.py: token_set_similarity.  Python sets are modelled as
duplicate-free lists (order is irrelevant: every use is sorted first). -/
def token_set_similarity (a b : String) : ℚ :=
  let tokens_a := (tokenize a).dedup
  let tokens_b := (tokenize b).dedup
  if tokens_a.isEmpty || tokens_b.isEmpty then 0
  else
    let intersection := tokens_a.filter (fun t => tokens_b.contains t)
    let diff_a := tokens_a.filter (fun t => !(intersection.contains t))
    let diff_b := tokens_b.filter (fun t => !(intersection.contains t))
    let sorted_intersection := String.intercalate " " (sortStrings intersection)
    let sorted_a := String.intercalate " " (sortStrings (intersection ++ diff_a).dedup)
    let sorted_b := String.intercalate " " (sortStrings (intersection ++ diff_b).dedup)
    let r1 := seqRatio sorted_intersection.data sorted_a.data
    let r2 := seqRatio sorted_intersection.data sorted_b.data
    let r3 := seqRatio sorted_a.data sorted_b.data
    max r1 (max r2 r3)

/-! Concrete fixtures used by counterexamples and witnesses. -/

/-- A top-of-book fixture: POLY market "PM" and KALSHI market "KM", YES rows
only, with a 19-cent cross-venue gap. -/
def fixtureTops : List OrderBookTop :=
  [⟨"POLY", "PM", "YES", 40/100, 41/100, 100, 100, 0⟩,
   ⟨"KALSHI", "KM", "YES", 60/100, 61/100, 100, 100, 0⟩]

/-- An event starting exactly at now + min_seconds_to_start (now = 0,
min_seconds_to_start = 300). -/
def fixtureEvent : CanonicalEvent := ⟨"E1", 300⟩

/-- AUTO WINNER_BINARY POLY binding for the fixture event. -/
def fixturePolyBinding : MarketBinding := ⟨"E1", "POLY", "PM", "WINNER_BINARY", "AUTO", 9/10⟩

/-- AUTO WINNER_BINARY KALSHI binding for the fixture event. -/
def fixtureKalshiBinding : MarketBinding := ⟨"E1", "KALSHI", "KM", "WINNER_BINARY", "AUTO", 9/10⟩

/-- Signaler store fixture whose single event starts exactly at the cutoff. -/
def fixtureSignalState : SignalState :=
  ⟨[fixtureEvent], [fixturePolyBinding, fixtureKalshiBinding], fixtureTops⟩

/-- The YES signal refresh_signals creates on `fixtureSignalState` at now = 0
with the default settings. -/
def fixtureSigYES : MispricingSignal :=
  ⟨"", "E1", "YES", "POLY", "KALSHI", "PM", "KM", 41/100, 3/5, 333333/5000, 19/100,
    6897/40000, 9/10, "OPEN"⟩

/-- The NO signal refresh_signals creates on `fixtureSignalState` at now = 0
with the default settings (derived NO quotes, reverse direction). -/
def fixtureSigNO : MispricingSignal :=
  ⟨"", "E1", "NO", "KALSHI", "POLY", "KM", "PM", 2/5, 59/100, 333333/5000, 19/100,
    6903/40000, 9/10, "OPEN"⟩

/-- A stored signal for the paper-trading witness: both legs cross the touch,
so the simulated fills are immediate. -/
def fixtureSimSignal : MispricingSignal :=
  ⟨"S1", "E1", "YES", "POLY", "KALSHI", "PM", "KM", 41/100, 60/100, 10, 19/100,
    6897/40000, 9/10, "OPEN"⟩

/-- Paper store fixture holding `fixtureSimSignal` and the fixture books. -/
def fixtureSimState : PaperState :=
  { signals := [fixtureSimSignal], tops := fixtureTops, positions := [], fills := [] }

/-- An already-CLOSED paper position. -/
def fixtureClosedPos : PaperPosition :=
  ⟨"P1", "E1", "S1", "YES", "POLY", "KALSHI", "PM", "KM", 10, 41/100, 60/100, 1,
    "CLOSED", some 1, 19/10, 0⟩

/-- Paper store fixture holding only the closed position. -/
def fixtureClosedState : PaperState :=
  { signals := [], tops := fixtureTops, positions := [fixtureClosedPos], fills := [] }

/-- The PaperPosition simulate_signal inserts on the fixture store. -/
def fixtureSimPos : PaperPosition :=
  ⟨"", "E1", "S1", "YES", "POLY", "KALSHI", "PM", "KM", 10, 41/100, 3/5, 1, "OPEN", none, 0, 0⟩

/-- The fixture paper store after simulate_signal succeeds on fixtureSimSignal. -/
def fixtureSimState2 : PaperState :=
  { signals := [fixtureSimSignal], tops := fixtureTops,
    positions := [fixtureSimPos],
    fills := [⟨"BUY", "BUY", 41/100, 41/100, 10, 10, 1⟩, ⟨"SELL", "SELL", 3/5, 3/5, 10, 10, 1⟩] }

/-- Invariant of find_longest_match's scanning loop before processing row i. -/
def FlmInv (alo blo bhi i : Nat) (s : FlmState) : Prop :=
  alo ≤ i ∧ alo ≤ s.besti ∧ blo ≤ s.bestj ∧ s.besti + s.bestsize ≤ i ∧
    s.bestj + s.bestsize ≤ bhi ∧ ∀ m, s.j2len m ≤ i - alo ∧ s.j2len m ≤ m + 1 - blo

/-! Theorems. -/

/-- Flooring at four decimals never increases a value. -/
theorem floor4_le (x : ℚ) : (⌊x * 10000⌋ : ℚ) / 10000 ≤ x := by
  rw [div_le_iff₀ (by norm_num : (0:ℚ) < 10000)]
  exact Int.floor_le _

/-- The per-venue fee rate is nonnegative when both configured bps are. -/
theorem venue_fee_rate_nonneg (venue : String) (s : Settings)
    (hpoly : 0 ≤ s.fee_poly_bps) (hkalshi : 0 ≤ s.fee_kalshi_bps) :
    0 ≤ venue_fee_rate venue s := by
  unfold venue_fee_rate
  split_ifs
  · exact div_nonneg hpoly (by norm_num)
  · exact div_nonneg hkalshi (by norm_num)
  · exact le_refl 0

/-- C3 (counterexample): as stated over all quotes, the claim is false: with
the default (nonnegative) fee bps and slippage_k, a quote pair whose
buy-ask + sell-bid is negative makes the fee term negative enough to push
edge_after_costs above edge_raw. -/
theorem compute_edge_negative_price_cex :
    0 ≤ defaultSettings.fee_poly_bps ∧ 0 ≤ defaultSettings.fee_kalshi_bps ∧
    0 ≤ defaultSettings.slippage_k ∧
    ¬ ((compute_edge ⟨-2, -2, 1, 1⟩ ⟨0, 0, 1, 1⟩ "POLY" "KALSHI" defaultSettings).edge_after_costs ≤
        (compute_edge ⟨-2, -2, 1, 1⟩ ⟨0, 0, 1, 1⟩ "POLY" "KALSHI" defaultSettings).edge_raw) := by
  simp only [compute_edge, total_fee_rate, venue_fee_rate, defaultSettings, TICK_SIZE,
    String.reduceEq, reduceIte]
  norm_num [max_def]

/-- C3 (amended): with nonnegative fee bps, nonnegative slippage_k, and
nonnegative buy-ask + sell-bid (prices are probabilities in [0,1], so this
always holds on real inputs), compute_edge satisfies
edge_after_costs ≤ edge_raw, and its slippage component is at least TICK. -/
theorem compute_edge_costs_spec (bq sq : Quote) (bv sv : String) (s : Settings)
    (hpoly : 0 ≤ s.fee_poly_bps) (hkalshi : 0 ≤ s.fee_kalshi_bps) (hk : 0 ≤ s.slippage_k)
    (hprices : 0 ≤ bq.ask + sq.bid) :
    (compute_edge bq sq bv sv s).edge_after_costs ≤ (compute_edge bq sq bv sv s).edge_raw ∧
    TICK_SIZE ≤ (compute_edge bq sq bv sv s).slippage_component := by
  have hrate : 0 ≤ total_fee_rate bv sv s :=
    add_nonneg (venue_fee_rate_nonneg bv s hpoly hkalshi)
      (venue_fee_rate_nonneg sv s hpoly hkalshi)
  have hfees : 0 ≤ (bq.ask + sq.bid) * total_fee_rate bv sv s := mul_nonneg hprices hrate
  have hslip : TICK_SIZE ≤
      max TICK_SIZE ((max 0 (max (bq.ask - bq.bid) (sq.ask - sq.bid))) * s.slippage_k) :=
    le_max_left _ _
  have htick : (0:ℚ) < TICK_SIZE := by norm_num [TICK_SIZE]
  constructor
  · simp only [compute_edge]
    linarith
  · simpa only [compute_edge] using hslip

/-- C3 (witness): the amended theorem applied to the edge-gating scenario
quotes of the spec with the default settings. -/
theorem compute_edge_costs_spec_witness :
    (compute_edge ⟨49/100, 50/100, 100, 100⟩ ⟨505/1000, 515/1000, 100, 100⟩ "POLY" "KALSHI"
        defaultSettings).edge_after_costs ≤
      (compute_edge ⟨49/100, 50/100, 100, 100⟩ ⟨505/1000, 515/1000, 100, 100⟩ "POLY" "KALSHI"
        defaultSettings).edge_raw ∧
    TICK_SIZE ≤ (compute_edge ⟨49/100, 50/100, 100, 100⟩ ⟨505/1000, 515/1000, 100, 100⟩ "POLY"
        "KALSHI" defaultSettings).slippage_component :=
  compute_edge_costs_spec _ _ _ _ _ (by norm_num [defaultSettings])
    (by norm_num [defaultSettings]) (by norm_num [defaultSettings]) (by norm_num)

/-- C5 (counterexample): as stated over all quotes, the claim is false: with a
negative visible depth (buy ask_size = -1) the function returns 0, which
exceeds the claimed bound min(ask_size, bid_size) / depth_multiplier = -2/3. -/
theorem suggested_size_depth_bound_cex :
    (0:ℚ) ≤ 250 ∧
    ¬ (suggested_size ⟨1/2, 1/2, 100, -1⟩ ⟨1/2, 1/2, 5, 5⟩ 250 (3/2) ≤
        min ((⟨1/2, 1/2, 100, -1⟩ : Quote).ask_size) ((⟨1/2, 1/2, 5, 5⟩ : Quote).bid_size) /
          (3/2)) := by
  norm_num [suggested_size, min_def]

/-- C5 (amended): for positive depth_multiplier and nonnegative visible depth,
suggested_size is bounded by visible / depth_multiplier; for nonnegative
max_notional it is bounded by max_notional / max(buy.ask, 0.01); it is 0
when the visible depth is nonpositive, and otherwise equals the floored
four-decimal value of min(by_depth, by_notional). -/
theorem suggested_size_spec (bq sq : Quote) (mn d : ℚ) :
    (0 < d → 0 ≤ min bq.ask_size sq.bid_size →
      suggested_size bq sq mn d ≤ min bq.ask_size sq.bid_size / d) ∧
    (0 ≤ mn → suggested_size bq sq mn d ≤ mn / max bq.ask (1/100)) ∧
    (min bq.ask_size sq.bid_size ≤ 0 → suggested_size bq sq mn d = 0) ∧
    (0 < min bq.ask_size sq.bid_size → 0 ≤ mn →
      suggested_size bq sq mn d =
        (⌊min (min bq.ask_size sq.bid_size / max d 1) (mn / max bq.ask (1/100)) * 10000⌋ : ℚ) /
          10000) := by
  have hbp : (0:ℚ) < max bq.ask (1/100) := lt_of_lt_of_le (by norm_num) (le_max_right _ _)
  have hd1 : (0:ℚ) < max d 1 := lt_of_lt_of_le (by norm_num) (le_max_right _ _)
  refine ⟨?_, ?_, ?_, ?_⟩
  · intro hd hv
    by_cases hv0 : min bq.ask_size sq.bid_size ≤ 0
    · have hveq : min bq.ask_size sq.bid_size = 0 := le_antisymm hv0 hv
      simp [suggested_size, hv0, hveq]
    · push_neg at hv0
      have hbd : 0 ≤ min bq.ask_size sq.bid_size / max d 1 := div_nonneg hv (le_of_lt hd1)
      have h1 : suggested_size bq sq mn d ≤
          max 0 (min (min bq.ask_size sq.bid_size / max d 1) (mn / max bq.ask (1/100))) := by
        simp only [suggested_size, if_neg (not_le.mpr hv0)]
        exact floor4_le _
      have h2 : max 0 (min (min bq.ask_size sq.bid_size / max d 1) (mn / max bq.ask (1/100))) ≤
          min bq.ask_size sq.bid_size / max d 1 :=
        max_le hbd (min_le_left _ _)
      have h3 : min bq.ask_size sq.bid_size / max d 1 ≤ min bq.ask_size sq.bid_size / d := by
        gcongr
        exact le_max_left _ _
      linarith
  · intro hmn
    have hbn : 0 ≤ mn / max bq.ask (1/100) := div_nonneg hmn (le_of_lt hbp)
    by_cases hv0 : min bq.ask_size sq.bid_size ≤ 0
    · simpa [suggested_size, hv0] using hbn
    · have h1 : suggested_size bq sq mn d ≤
          max 0 (min (min bq.ask_size sq.bid_size / max d 1) (mn / max bq.ask (1/100))) := by
        simp only [suggested_size, if_neg hv0]
        exact floor4_le _
      have h2 : max 0 (min (min bq.ask_size sq.bid_size / max d 1) (mn / max bq.ask (1/100))) ≤
          mn / max bq.ask (1/100) :=
        max_le hbn (min_le_right _ _)
      linarith
  · intro hv0
    simp [suggested_size, hv0]
  · intro hv hmn
    have hbd : 0 ≤ min bq.ask_size sq.bid_size / max d 1 := div_nonneg (le_of_lt hv) (le_of_lt hd1)
    have hbn : 0 ≤ mn / max bq.ask (1/100) := div_nonneg hmn (le_of_lt hbp)
    have hraw : max 0 (min (min bq.ask_size sq.bid_size / max d 1) (mn / max bq.ask (1/100))) =
        min (min bq.ask_size sq.bid_size / max d 1) (mn / max bq.ask (1/100)) :=
      max_eq_right (le_min hbd hbn)
    simp only [suggested_size, if_neg (not_le.mpr hv), hraw]

/-- C5 (witness): the amended bound applied to a concrete quote pair with the
default notional and depth multiplier. -/
theorem suggested_size_spec_witness :
    suggested_size ⟨40/100, 41/100, 100, 100⟩ ⟨60/100, 61/100, 100, 100⟩ 250 (3/2) ≤
      min ((⟨40/100, 41/100, 100, 100⟩ : Quote).ask_size)
        ((⟨60/100, 61/100, 100, 100⟩ : Quote).bid_size) / (3/2) :=
  (suggested_size_spec ⟨40/100, 41/100, 100, 100⟩ ⟨60/100, 61/100, 100, 100⟩ 250 (3/2)).1
    (by norm_num) (by norm_num)

/-- C2 (counterexample): the iff of the claim fails on the code: the list
["yes", "no", "no"] has lowercased token set {yes, no} yet is classified
WINNER_3WAY (the code additionally requires exactly two outcomes). -/
theorem detect_market_type_set_iff_cex :
    (["yes", "no", "no"].map pyLower).toFinset = ({"yes", "no"} : Finset String) ∧
    detect_market_type ["yes", "no", "no"] = "WINNER_3WAY" ∧
    detect_market_type ["yes", "no", "no"] ≠ "WINNER_BINARY" := by
  refine ⟨by decide, by decide, by decide⟩

/-- C2 (amended): detect_market_type returns WINNER_BINARY iff the outcome
list has exactly two elements and its lowercased set is {yes, no}. -/
theorem detect_market_type_winner_binary_iff (outcomes : List String) :
    detect_market_type outcomes = "WINNER_BINARY" ↔
      outcomes.length = 2 ∧ (outcomes.map pyLower).toFinset = {"yes", "no"} := by
  simp only [detect_market_type]
  by_cases h1 : outcomes.length = 2 ∧ "yes" ∈ outcomes.map pyLower ∧ "no" ∈ outcomes.map pyLower
  · rw [if_pos h1]
    refine iff_of_true rfl ⟨h1.1, ?_⟩
    obtain ⟨a, b, hab⟩ := List.length_eq_two.mp h1.1
    subst hab
    have hy := h1.2.1
    have hn := h1.2.2
    simp only [List.map_cons, List.map_nil, List.mem_cons, List.not_mem_nil, or_false] at hy hn
    simp only [List.map_cons, List.map_nil, List.toFinset_cons, List.toFinset_nil,
      insert_emptyc_eq]
    rcases hy with hy | hy <;> rcases hn with hn | hn
    · exact absurd (hy ▸ hn) (by decide)
    · rw [hy, hn]
    · rw [hy, hn, Finset.pair_comm]
    · exact absurd (hy ▸ hn) (by decide)
  · rw [if_neg h1]
    have hright : ¬ (outcomes.length = 2 ∧ (outcomes.map pyLower).toFinset = {"yes", "no"}) := by
      rintro ⟨hl, hf⟩
      refine h1 ⟨hl, ?_, ?_⟩
      · exact List.mem_toFinset.mp (hf ▸ Finset.mem_insert_self "yes" {"no"})
      · exact List.mem_toFinset.mp
          (hf ▸ Finset.mem_insert_of_mem (Finset.mem_singleton_self "no"))
    by_cases h2 : outcomes.length = 3
    · rw [if_pos h2]
      exact iff_of_false (by decide) hright
    · rw [if_neg h2]
      exact iff_of_false (by decide) hright

/-- C4: the resolver status decision.  An override takes precedence with its
status (default "OVERRIDE"); without an override, any non-binary market type,
orientation flip, or missing start forces REVIEW; otherwise the thresholded
score decides AUTO / REVIEW / REJECTED. -/
theorem decision_status_spec (score : ℚ) (poly kalshi : VenueMarketView) (fl : Bool)
    (ov : Option OverrideRow) :
    (∀ o, ov = some o → decision score poly kalshi fl ov = o.status.getD "OVERRIDE") ∧
    (ov = none →
      (poly.market_type ≠ "WINNER_BINARY" ∨ kalshi.market_type ≠ "WINNER_BINARY" ∨
        fl = true ∨ poly.start_time_utc = none ∨ kalshi.start_time_utc = none) →
      decision score poly kalshi fl ov = "REVIEW") ∧
    (ov = none → poly.market_type = "WINNER_BINARY" → kalshi.market_type = "WINNER_BINARY" →
      fl = false → poly.start_time_utc ≠ none → kalshi.start_time_utc ≠ none →
      ((decision score poly kalshi fl ov = "AUTO" ↔ 86/100 ≤ score) ∧
       (decision score poly kalshi fl ov = "REVIEW" ↔ 80/100 ≤ score ∧ score < 86/100) ∧
       (decision score poly kalshi fl ov = "REJECTED" ↔ score < 80/100))) := by
  refine ⟨?_, ?_, ?_⟩
  · intro o h
    subst h
    rfl
  · intro h hcase
    subst h
    simp only [decision]
    split_ifs <;> first | rfl | tauto
  · intro h hp hk hf hps hks
    subst h
    subst hf
    rcases hpo : poly.start_time_utc with _ | vp
    · exact absurd hpo hps
    rcases hko : kalshi.start_time_utc with _ | vk
    · exact absurd hko hks
    simp only [decision, hp, hk, hpo, hko, String.reduceEq, reduceCtorEq, or_self, if_false,
      Bool.false_eq_true, reduceIte]
    by_cases hs1 : 86/100 ≤ score
    · rw [if_pos hs1]
      refine ⟨iff_of_true rfl hs1, iff_of_false (by decide) ?_, iff_of_false (by decide) ?_⟩
      · rintro ⟨-, hlt⟩
        linarith
      · intro hlt
        linarith
    · rw [if_neg hs1]
      by_cases hs2 : 80/100 ≤ score
      · rw [if_pos hs2]
        refine ⟨iff_of_false (by decide) hs1, iff_of_true rfl ⟨hs2, lt_of_not_le hs1⟩,
          iff_of_false (by decide) ?_⟩
        intro hlt
        linarith
      · rw [if_neg hs2]
        refine ⟨iff_of_false (by decide) hs1, iff_of_false (by decide) ?_,
          iff_of_true rfl (lt_of_not_le hs2)⟩
        rintro ⟨hge, -⟩
        exact hs2 hge

/-- C4 (witness): a clean WINNER_BINARY pair with no override, no flip, known
starts, and total score 0.9 is decided AUTO. -/
theorem decision_status_spec_witness :
    decision (9/10) ⟨"WINNER_BINARY", some 0⟩ ⟨"WINNER_BINARY", some 0⟩ false none = "AUTO" :=
  ((decision_status_spec (9/10) ⟨"WINNER_BINARY", some 0⟩ ⟨"WINNER_BINARY", some 0⟩ false
      none).2.2 rfl rfl rfl rfl (by simp) (by simp)).1.mpr (by norm_num)

/-- Overwriting non-key fields does not change whether a row matches a key. -/
theorem topMatches_applyTopUpdate (v m o : String) (bb ba bs ask now : ℚ)
    (r : OrderBookTop) :
    topMatches v m o (applyTopUpdate bb ba bs ask now r) = topMatches v m o r := rfl

/-- The per-row upsert action never changes which keys a row matches. -/
theorem topMatches_upsertRowFun (v m o v2 m2 o2 : String) (bb ba bs ask now : ℚ)
    (r : OrderBookTop) :
    topMatches v m o (upsertRowFun v2 m2 o2 bb ba bs ask now r) = topMatches v m o r := by
  unfold upsertRowFun
  split_ifs <;> rfl

/-- A fresh row matches its own key. -/
theorem topMatches_self (v m o : String) (bb ba bs ask now : ℚ) :
    topMatches v m o ⟨v, m, o, bb, ba, bs, ask, now⟩ = true := by
  simp [topMatches]

/-- A row matching a key forces the key components. -/
theorem topMatches_keys {v m o : String} {r : OrderBookTop}
    (h : topMatches v m o r = true) : r.venue = v ∧ r.venue_market_id = m ∧ r.outcome = o := by
  simpa [topMatches, Bool.and_eq_true, beq_iff_eq, and_assoc] using h

/-- The per-row upsert action is idempotent. -/
theorem upsertRowFun_idem (v m o : String) (bb ba bs ask now : ℚ) (r : OrderBookTop) :
    upsertRowFun v m o bb ba bs ask now (upsertRowFun v m o bb ba bs ask now r) =
      upsertRowFun v m o bb ba bs ask now r := by
  unfold upsertRowFun
  by_cases h : topMatches v m o r = true
  · rw [if_pos h, if_pos (by rw [topMatches_applyTopUpdate]; exact h)]
    unfold applyTopUpdate
    rfl
  · rw [if_neg h, if_neg h]

/-- On a matching row the per-row upsert action writes exactly the new row. -/
theorem upsertRowFun_of_match {v m o : String} {r : OrderBookTop}
    (hr : topMatches v m o r = true) (bb ba bs ask now : ℚ) :
    upsertRowFun v m o bb ba bs ask now r = ⟨v, m, o, bb, ba, bs, ask, now⟩ := by
  obtain ⟨hv, hm, ho⟩ := topMatches_keys hr
  unfold upsertRowFun applyTopUpdate
  rw [if_pos hr]
  obtain ⟨rv, rm, ro, x1, x2, x3, x4, x5⟩ := r
  have hv2 : rv = v := hv
  have hm2 : rm = m := hm
  have ho2 : ro = o := ho
  rw [hv2, hm2, ho2]

/-- Mapping the conflict branch over the store preserves every per-key count. -/
theorem countP_upsert_map (rows : List OrderBookTop) (v m o v2 m2 o2 : String)
    (bb ba bs ask now : ℚ) :
    ((rows.map (upsertRowFun v2 m2 o2 bb ba bs ask now)).countP (topMatches v m o)) =
      rows.countP (topMatches v m o) := by
  rw [List.countP_map]
  refine List.countP_congr (fun r hr => ?_)
  rw [Function.comp_apply, topMatches_upsertRowFun]

/-- One upsert preserves the at-most-one-row-per-key property (for every key). -/
theorem upsert_top_unique_preserved (rows : List OrderBookTop) (a : UpsertArgs)
    (hinv : ∀ v m o, rows.countP (topMatches v m o) ≤ 1) (v m o : String) :
    ((upsert_top rows a.venue a.venue_market_id a.outcome a.best_bid a.best_ask a.bid_size
        a.ask_size a.now).countP (topMatches v m o)) ≤ 1 := by
  unfold upsert_top
  split_ifs with hany
  · rw [countP_upsert_map]
    exact hinv v m o
  · rw [Bool.not_eq_true] at hany
    rw [List.countP_append]
    by_cases hnew : topMatches v m o
        (⟨a.venue, a.venue_market_id, a.outcome, a.best_bid, a.best_ask, a.bid_size,
          a.ask_size, a.now⟩ : OrderBookTop) = true
    · obtain ⟨hv, hm, ho⟩ := topMatches_keys hnew
      have hv2 : a.venue = v := hv
      have hm2 : a.venue_market_id = m := hm
      have ho2 : a.outcome = o := ho
      have hzero : rows.countP (topMatches v m o) = 0 := by
        refine List.countP_eq_zero.mpr (fun r hr => ?_)
        rw [List.any_eq_false] at hany
        rw [← hv2, ← hm2, ← ho2]
        exact hany r hr
      rw [hzero]
      simp [List.countP_cons, hnew]
    · have h1 : List.countP (topMatches v m o)
          [(⟨a.venue, a.venue_market_id, a.outcome, a.best_bid, a.best_ask, a.bid_size,
            a.ask_size, a.now⟩ : OrderBookTop)] = 0 := by
        simp [List.countP_cons, hnew]
      rw [h1]
      simpa using hinv v m o

/-- Any sequence of upserts preserves the uniqueness invariant. -/
theorem applyUpserts_unique (ops : List UpsertArgs) (rows : List OrderBookTop)
    (hinv : ∀ v m o, rows.countP (topMatches v m o) ≤ 1) :
    ∀ v m o, ((applyUpserts ops rows).countP (topMatches v m o)) ≤ 1 := by
  induction ops generalizing rows with
  | nil => exact hinv
  | cons a rest ih => exact ih _ (upsert_top_unique_preserved rows a hinv)

/-- On the conflict branch, the lookup after the map returns the written row. -/
theorem find_map_upsert (rows : List OrderBookTop) (v m o : String) (bb ba bs ask now : ℚ)
    (hany : rows.any (topMatches v m o) = true) :
    ((rows.map (upsertRowFun v m o bb ba bs ask now)).find? (topMatches v m o)) =
      some ⟨v, m, o, bb, ba, bs, ask, now⟩ := by
  induction rows with
  | nil => simp at hany
  | cons r rest ih =>
    by_cases hr : topMatches v m o r = true
    · rw [List.map_cons,
        List.find?_cons_of_pos _ (by rw [topMatches_upsertRowFun]; exact hr),
        upsertRowFun_of_match hr]
    · rw [List.any_cons, Bool.or_eq_true] at hany
      rcases hany with h | h
      · exact absurd h hr
      · rw [List.map_cons,
          List.find?_cons_of_neg _ (by rw [topMatches_upsertRowFun]; exact hr), ih h]

/-- Reading a key immediately after upserting it returns the written values. -/
theorem get_top_upsert_eq (rows : List OrderBookTop) (v m o : String) (bb ba bs ask now : ℚ) :
    get_top (upsert_top rows v m o bb ba bs ask now) v m o =
      some ⟨v, m, o, bb, ba, bs, ask, now⟩ := by
  unfold upsert_top get_top
  split_ifs with hany
  · exact find_map_upsert rows v m o bb ba bs ask now hany
  · rw [Bool.not_eq_true] at hany
    rw [List.find?_append]
    have hnone : rows.find? (topMatches v m o) = none := by
      rw [List.find?_eq_none]
      intro x hx
      rw [List.any_eq_false] at hany
      exact hany x hx
    rw [hnone]
    simp [List.find?, topMatches_self]

/-- Upserting the same row twice equals upserting it once. -/
theorem upsert_top_idempotent (rows : List OrderBookTop) (v m o : String)
    (bb ba bs ask now : ℚ) :
    upsert_top (upsert_top rows v m o bb ba bs ask now) v m o bb ba bs ask now =
      upsert_top rows v m o bb ba bs ask now := by
  by_cases hany : rows.any (topMatches v m o) = true
  · have h1 : upsert_top rows v m o bb ba bs ask now =
        rows.map (upsertRowFun v m o bb ba bs ask now) := by
      unfold upsert_top
      rw [if_pos hany]
    rw [h1]
    have hany2 : ((rows.map (upsertRowFun v m o bb ba bs ask now)).any (topMatches v m o)) =
        true := by
      rw [List.any_map]
      rw [List.any_eq_true] at hany ⊢
      obtain ⟨r, hr, hpr⟩ := hany
      exact ⟨r, hr, by rw [Function.comp_apply, topMatches_upsertRowFun]; exact hpr⟩
    unfold upsert_top
    rw [if_pos hany2, List.map_map]
    refine List.map_congr_left (fun r hr => ?_)
    rw [Function.comp_apply]
    exact upsertRowFun_idem v m o bb ba bs ask now r
  · have h1 : upsert_top rows v m o bb ba bs ask now =
        rows ++ [⟨v, m, o, bb, ba, bs, ask, now⟩] := by
      unfold upsert_top
      rw [if_neg hany]
    rw [Bool.not_eq_true] at hany
    rw [h1]
    have hany2 : ((rows ++ [(⟨v, m, o, bb, ba, bs, ask, now⟩ : OrderBookTop)]).any
        (topMatches v m o)) = true := by
      rw [List.any_append]
      simp [topMatches_self]
    unfold upsert_top
    rw [if_pos hany2, List.map_append]
    have h2 : rows.map (upsertRowFun v m o bb ba bs ask now) = rows.map id := by
      refine List.map_congr_left (fun r hr => ?_)
      rw [List.any_eq_false] at hany
      unfold upsertRowFun
      rw [if_neg (hany r hr)]
      rfl
    have h3 : ([(⟨v, m, o, bb, ba, bs, ask, now⟩ : OrderBookTop)].map
        (upsertRowFun v m o bb ba bs ask now)) = [⟨v, m, o, bb, ba, bs, ask, now⟩] := by
      rw [List.map_cons, List.map_nil, upsertRowFun_of_match (topMatches_self v m o bb ba bs ask now)]
    rw [h2, h3, List.map_id]

/-- C6: the order-book store (orderbook.py) holds at most one row per
(venue, venue_market_id, outcome) after any sequence of upsert_top calls
starting from the empty store; get_top right after upsert_top returns exactly
the written values; and upserting the same row twice leaves the store equal to
the state after the first upsert. -/
theorem orderbook_upsert_spec :
    (∀ (ops : List UpsertArgs) (v m o : String),
      ((applyUpserts ops []).countP (topMatches v m o)) ≤ 1) ∧
    (∀ (rows : List OrderBookTop) (v m o : String) (bb ba bs ask now : ℚ),
      get_top (upsert_top rows v m o bb ba bs ask now) v m o =
        some ⟨v, m, o, bb, ba, bs, ask, now⟩) ∧
    (∀ (rows : List OrderBookTop) (v m o : String) (bb ba bs ask now : ℚ),
      upsert_top (upsert_top rows v m o bb ba bs ask now) v m o bb ba bs ask now =
        upsert_top rows v m o bb ba bs ask now) :=
  ⟨fun ops v m o => applyUpserts_unique ops [] (fun _ _ _ => by simp) v m o,
   get_top_upsert_eq, upsert_top_idempotent⟩

/-- C8 (counterexample): the claim says p = 0.12 whenever
best_bid < limit < best_ask, but the code classifies any limit within 1e-9 of
best_bid as the 0.60 branch: with best_bid = 0.4, best_ask = 0.6 and
limit = 0.4 + 1e-10 strictly inside the interval, the probability is 0.60. -/
theorem simulate_limit_fill_prob_cex :
    (4/10 : ℚ) < 4/10 + 1/10000000000 ∧ (4/10 : ℚ) + 1/10000000000 < 6/10 ∧
    (simulate_limit_fill "BUY" (4/10 + 1/10000000000) (4/10) (6/10) 1 1 [1]).1.probability =
      60/100 ∧
    (simulate_limit_fill "BUY" (4/10 + 1/10000000000) (4/10) (6/10) 1 1 [1]).1.probability ≠
      12/100 := by
  have hup : pyUpper "BUY" = "BUY" := by decide
  have habs : |(1/10000000000 : ℚ)| < 1/1000000000 := by
    rw [abs_of_pos (by norm_num : (0:ℚ) < 1/10000000000)]
    norm_num
  have heval : (simulate_limit_fill "BUY" (4/10 + 1/10000000000) (4/10) (6/10) 1 1
      [1]).1.probability = 60/100 := by
    simp only [simulate_limit_fill, hup, String.reduceEq]
    norm_num [max_def, habs]
  exact ⟨by norm_num, by norm_num, heval, by rw [heval]; norm_num⟩

/-- C8 (amended): the fill model with the code's 1e-9 tolerance band around the
join price: for positive requested size and positive displayed depth, a BUY
crossing the ask (resp. a SELL crossing the bid) fills min(requested, depth)
at the touch with probability 1 and consumes no draw; otherwise the
probability is 0.60 within 1e-9 of best_bid (resp. best_ask), 0.12 strictly
inside the spread (outside that band), 0.03 otherwise, and the head draw u
fills min(requested, depth * p) at the limit when u ≤ p and 0 otherwise. -/
theorem simulate_limit_fill_spec (limit bb ba depth req u : ℚ) (rest : List ℚ)
    (hreq : 0 < req) (hdepth : 0 < depth) :
    (ba ≤ limit →
      simulate_limit_fill "BUY" limit bb ba depth req (u :: rest) =
        (⟨ba, min req depth, 1⟩, u :: rest)) ∧
    (limit < ba → |limit - bb| < 1/1000000000 →
      simulate_limit_fill "BUY" limit bb ba depth req (u :: rest) =
        (⟨limit, if u ≤ 60/100 then min req (depth * (60/100)) else 0, 60/100⟩, rest)) ∧
    (limit < ba → ¬ |limit - bb| < 1/1000000000 → bb < limit →
      simulate_limit_fill "BUY" limit bb ba depth req (u :: rest) =
        (⟨limit, if u ≤ 12/100 then min req (depth * (12/100)) else 0, 12/100⟩, rest)) ∧
    (limit < ba → ¬ |limit - bb| < 1/1000000000 → ¬ (bb < limit ∧ limit < ba) →
      simulate_limit_fill "BUY" limit bb ba depth req (u :: rest) =
        (⟨limit, if u ≤ 3/100 then min req (depth * (3/100)) else 0, 3/100⟩, rest)) ∧
    (limit ≤ bb →
      simulate_limit_fill "SELL" limit bb ba depth req (u :: rest) =
        (⟨bb, min req depth, 1⟩, u :: rest)) ∧
    (bb < limit → |limit - ba| < 1/1000000000 →
      simulate_limit_fill "SELL" limit bb ba depth req (u :: rest) =
        (⟨limit, if u ≤ 60/100 then min req (depth * (60/100)) else 0, 60/100⟩, rest)) ∧
    (bb < limit → ¬ |limit - ba| < 1/1000000000 → limit < ba →
      simulate_limit_fill "SELL" limit bb ba depth req (u :: rest) =
        (⟨limit, if u ≤ 12/100 then min req (depth * (12/100)) else 0, 12/100⟩, rest)) ∧
    (bb < limit → ¬ |limit - ba| < 1/1000000000 → ¬ (bb < limit ∧ limit < ba) →
      simulate_limit_fill "SELL" limit bb ba depth req (u :: rest) =
        (⟨limit, if u ≤ 3/100 then min req (depth * (3/100)) else 0, 3/100⟩, rest)) := by
  have hbuy : pyUpper "BUY" = "BUY" := by decide
  have hsell : pyUpper "SELL" = "SELL" := by decide
  have hmax : max 0 req = req := max_eq_right hreq.le
  have hgate : ¬ (req ≤ 0 ∨ depth ≤ 0) := by
    push_neg
    exact ⟨hreq, hdepth⟩
  refine ⟨?_, ?_, ?_, ?_, ?_, ?_, ?_, ?_⟩
  · intro h1
    simp only [simulate_limit_fill, hbuy, String.reduceEq, hmax, if_neg hgate, if_true, if_false,
      if_pos h1]
  · intro h1 h2
    simp only [simulate_limit_fill, hbuy, String.reduceEq, hmax, if_neg hgate, if_true, if_false,
      if_neg (not_le.mpr h1), if_pos h2, List.headD, List.tail]
  · intro h1 h2 h3
    simp only [simulate_limit_fill, hbuy, String.reduceEq, hmax, if_neg hgate, if_true, if_false,
      if_neg (not_le.mpr h1), if_neg h2, if_pos (And.intro h3 h1), List.headD, List.tail]
  · intro h1 h2 h3
    simp only [simulate_limit_fill, hbuy, String.reduceEq, hmax, if_neg hgate, if_true, if_false,
      if_neg (not_le.mpr h1), if_neg h2, if_neg h3, List.headD, List.tail]
  · intro h1
    simp only [simulate_limit_fill, hsell, String.reduceEq, hmax, if_neg hgate, if_true, if_false,
      if_pos h1]
  · intro h1 h2
    simp only [simulate_limit_fill, hsell, String.reduceEq, hmax, if_neg hgate, if_true, if_false,
      if_neg (not_le.mpr h1), if_pos h2, List.headD, List.tail]
  · intro h1 h2 h3
    simp only [simulate_limit_fill, hsell, String.reduceEq, hmax, if_neg hgate, if_true, if_false,
      if_neg (not_le.mpr h1), if_neg h2, if_pos (And.intro h1 h3), List.headD, List.tail]
  · intro h1 h2 h3
    simp only [simulate_limit_fill, hsell, String.reduceEq, hmax, if_neg hgate, if_true, if_false,
      if_neg (not_le.mpr h1), if_neg h2, if_neg h3, List.headD, List.tail]

/-- C8 (witness): a BUY strictly inside the spread and outside the 1e-9 band,
with draw u = 0.1 ≤ 0.12, fills depth * 0.12 at the limit. -/
theorem simulate_limit_fill_spec_witness :
    simulate_limit_fill "BUY" (1/2) (2/5) (3/5) 10 5 [1/10] =
      (⟨1/2, 6/5, 12/100⟩, []) := by
  have habs : ¬ |(1/2 : ℚ) - 2/5| < 1/1000000000 := by
    rw [show ((1:ℚ)/2 - 2/5) = 1/10 by norm_num, abs_of_pos (by norm_num : (0:ℚ) < 1/10)]
    norm_num
  have h := (simulate_limit_fill_spec (1/2) (2/5) (3/5) 10 5 (1/10) [] (by norm_num)
    (by norm_num)).2.2.1 (by norm_num) habs (by norm_num)
  rw [h]
  norm_num [min_def]

/-- C10: close_position on a position whose status is already CLOSED returns
that position unchanged and leaves the whole store (positions, fills, signals,
order books) untouched, whatever the order-book contents and the close time
are; hence a second close after a close is a no-op. -/
theorem close_position_closed_noop (st : PaperState) (pid : String) (now : ℚ)
    (pos : PaperPosition) (hfind : st.positions.find? (fun p => p.id == pid) = some pos)
    (hclosed : pos.status = "CLOSED") :
    close_position st pid now = .ok (st, pos) := by
  unfold close_position
  rw [hfind]
  simp [hclosed]

/-- C10 (witness): closing the already-closed fixture position returns it and
the unchanged store. -/
theorem close_position_closed_noop_witness :
    close_position fixtureClosedState "P1" 5 = .ok (fixtureClosedState, fixtureClosedPos) :=
  close_position_closed_noop fixtureClosedState "P1" 5 fixtureClosedPos rfl rfl

/-- The fixture store pairs its single event with its two AUTO bindings. -/
theorem loadBindingPairs_fixture_eval : loadBindingPairs fixtureSignalState =
    [(fixtureEvent, fixturePolyBinding, fixtureKalshiBinding)] := by
  simp only [loadBindingPairs, fixtureSignalState, pairForEvent, fixtureEvent,
    fixturePolyBinding, fixtureKalshiBinding, List.filterMap, List.filter, List.find?,
    String.reduceBEq, String.reduceEq, Bool.and_true, Bool.true_and, Bool.or_true,
    Bool.true_or, Bool.and_self, if_true, reduceIte]

/-- Direct YES quote on the fixture POLY book. -/
theorem getQuote_fixture_poly_yes :
    getQuote fixtureTops "POLY" "PM" "YES" = some ⟨2/5, 41/100, 100, 100⟩ := by
  simp only [getQuote, get_top, fixtureTops, topMatches, List.find?, String.reduceBEq,
    Bool.and_true, Bool.true_and, Bool.and_self, Bool.and_false, Bool.false_and]
  norm_num

/-- Direct YES quote on the fixture KALSHI book. -/
theorem getQuote_fixture_kalshi_yes :
    getQuote fixtureTops "KALSHI" "KM" "YES" = some ⟨3/5, 61/100, 100, 100⟩ := by
  simp only [getQuote, get_top, fixtureTops, topMatches, List.find?, String.reduceBEq,
    Bool.and_true, Bool.true_and, Bool.and_self, Bool.and_false, Bool.false_and]
  norm_num

/-- Derived NO quote on the fixture POLY book. -/
theorem getQuote_fixture_poly_no :
    getQuote fixtureTops "POLY" "PM" "NO" = some ⟨59/100, 3/5, 100, 100⟩ := by
  simp only [getQuote, get_top, fixtureTops, topMatches, List.find?, String.reduceBEq,
    String.reduceEq, Bool.and_true, Bool.true_and, Bool.and_self, Bool.and_false,
    Bool.false_and, reduceIte]
  norm_num [max_def]

/-- Derived NO quote on the fixture KALSHI book. -/
theorem getQuote_fixture_kalshi_no :
    getQuote fixtureTops "KALSHI" "KM" "NO" = some ⟨39/100, 2/5, 100, 100⟩ := by
  simp only [getQuote, get_top, fixtureTops, topMatches, List.find?, String.reduceBEq,
    String.reduceEq, Bool.and_true, Bool.true_and, Bool.and_self, Bool.and_false,
    Bool.false_and, reduceIte]
  norm_num [max_def]

/-- Edge of the buy-POLY / sell-KALSHI direction on the YES fixture quotes. -/
theorem compute_edge_fixture_ab_yes :
    compute_edge ⟨2/5, 41/100, 100, 100⟩ ⟨3/5, 61/100, 100, 100⟩ "POLY" "KALSHI"
      defaultSettings = ⟨19/100, 6897/40000, 303/40000, 1/100⟩ := by
  simp only [compute_edge, total_fee_rate, venue_fee_rate, TICK_SIZE, defaultSettings,
    String.reduceEq, reduceIte]
  norm_num [max_def]

/-- Edge of the buy-KALSHI / sell-POLY direction on the YES fixture quotes. -/
theorem compute_edge_fixture_ba_yes :
    compute_edge ⟨3/5, 61/100, 100, 100⟩ ⟨2/5, 41/100, 100, 100⟩ "KALSHI" "POLY"
      defaultSettings = ⟨-21/100, -9103/40000, 303/40000, 1/100⟩ := by
  simp only [compute_edge, total_fee_rate, venue_fee_rate, TICK_SIZE, defaultSettings,
    String.reduceEq, reduceIte]
  norm_num [max_def]

/-- Edge of the buy-POLY / sell-KALSHI direction on the derived NO quotes. -/
theorem compute_edge_fixture_ab_no :
    compute_edge ⟨59/100, 3/5, 100, 100⟩ ⟨39/100, 2/5, 100, 100⟩ "POLY" "KALSHI"
      defaultSettings = ⟨-21/100, -9097/40000, 297/40000, 1/100⟩ := by
  simp only [compute_edge, total_fee_rate, venue_fee_rate, TICK_SIZE, defaultSettings,
    String.reduceEq, reduceIte]
  norm_num [max_def]

/-- Edge of the buy-KALSHI / sell-POLY direction on the derived NO quotes. -/
theorem compute_edge_fixture_ba_no :
    compute_edge ⟨39/100, 2/5, 100, 100⟩ ⟨59/100, 3/5, 100, 100⟩ "KALSHI" "POLY"
      defaultSettings = ⟨19/100, 6903/40000, 297/40000, 1/100⟩ := by
  simp only [compute_edge, total_fee_rate, venue_fee_rate, TICK_SIZE, defaultSettings,
    String.reduceEq, reduceIte]
  norm_num [max_def]

/-- Suggested size on the YES fixture quotes: floor(100/1.5 scaled). -/
theorem suggested_size_fixture_yes :
    suggested_size ⟨2/5, 41/100, 100, 100⟩ ⟨3/5, 61/100, 100, 100⟩ 250 (3/2) =
      333333/5000 := by
  simp only [suggested_size]
  norm_num [max_def, min_def]

/-- Suggested size on the derived NO quotes. -/
theorem suggested_size_fixture_no :
    suggested_size ⟨39/100, 2/5, 100, 100⟩ ⟨59/100, 3/5, 100, 100⟩ 250 (3/2) =
      333333/5000 := by
  simp only [suggested_size]
  norm_num [max_def, min_def]

/-- Python round(0.9, 4) = 0.9. -/
theorem pyRound4_nine_tenths : pyRound4 (9/10 : ℚ) = 9/10 := by
  simp only [pyRound4, pyRoundHalfEven]
  norm_num [Int.floor_eq_iff]

/-- The fixture YES evaluation creates `fixtureSigYES`. -/
theorem evaluatePair_fixture_yes :
    evaluatePair fixtureTops defaultSettings fixtureEvent fixturePolyBinding
      fixtureKalshiBinding "YES" = some fixtureSigYES := by
  have hmn : defaultSettings.max_notional_per_event = 250 := by norm_num [defaultSettings]
  have hdm : defaultSettings.depth_multiplier = 3/2 := by norm_num [defaultSettings]
  have hme : defaultSettings.min_edge = 1/125 := by norm_num [defaultSettings]
  simp only [evaluatePair, fixturePolyBinding, fixtureKalshiBinding, fixtureEvent,
    getQuote_fixture_poly_yes, getQuote_fixture_kalshi_yes, compute_edge_fixture_ab_yes,
    compute_edge_fixture_ba_yes, hmn, hdm, hme, min_self, pyRound4_nine_tenths]
  norm_num [suggested_size_fixture_yes, fixtureSigYES, pyRound4_nine_tenths]

/-- The fixture NO evaluation creates `fixtureSigNO`. -/
theorem evaluatePair_fixture_no :
    evaluatePair fixtureTops defaultSettings fixtureEvent fixturePolyBinding
      fixtureKalshiBinding "NO" = some fixtureSigNO := by
  have hmn : defaultSettings.max_notional_per_event = 250 := by norm_num [defaultSettings]
  have hdm : defaultSettings.depth_multiplier = 3/2 := by norm_num [defaultSettings]
  have hme : defaultSettings.min_edge = 1/125 := by norm_num [defaultSettings]
  simp only [evaluatePair, fixturePolyBinding, fixtureKalshiBinding, fixtureEvent,
    getQuote_fixture_poly_no, getQuote_fixture_kalshi_no, compute_edge_fixture_ab_no,
    compute_edge_fixture_ba_no, hmn, hdm, hme, min_self, pyRound4_nine_tenths]
  norm_num [suggested_size_fixture_no, fixtureSigNO, pyRound4_nine_tenths]

/-- The full signal cycle on the fixture store at now = 0 creates both
signals, although the event starts exactly at now + min_seconds_to_start. -/
theorem refresh_signals_fixture_eval :
    refresh_signals fixtureSignalState defaultSettings 0 =
      [fixtureSigYES, fixtureSigNO] := by
  have hms : defaultSettings.min_seconds_to_start = 300 := by norm_num [defaultSettings]
  have hstart : fixtureEvent.start_time_utc = 300 := by norm_num [fixtureEvent]
  have htops : fixtureSignalState.tops = fixtureTops := rfl
  simp only [refresh_signals, loadBindingPairs_fixture_eval, hms, htops, List.flatMap_cons,
    List.flatMap_nil, List.append_nil, hstart]
  norm_num [List.filterMap_cons, evaluatePair_fixture_yes, evaluatePair_fixture_no]

/-- The per-event pairing returns pairs whose first component is the event
itself. -/
theorem pairForEvent_fst (st : SignalState) (e : CanonicalEvent)
    (pair : CanonicalEvent × MarketBinding × MarketBinding)
    (h : pairForEvent st e = some pair) : pair.1 = e := by
  simp only [pairForEvent] at h
  cases hp : (st.bindings.filter fun b =>
      b.canonical_event_id == e.id && (b.status == "AUTO" || b.status == "OVERRIDE")).find?
      (fun b => b.venue == "POLY") with
  | none =>
    simp only [hp] at h
    exact Option.noConfusion h
  | some poly =>
    cases hk : (st.bindings.filter fun b =>
        b.canonical_event_id == e.id && (b.status == "AUTO" || b.status == "OVERRIDE")).find?
        (fun b => b.venue == "KALSHI") with
    | none =>
      simp only [hp, hk] at h
      exact Option.noConfusion h
    | some kalshi =>
      simp only [hp, hk] at h
      split_ifs at h
      injection h with h2
      rw [← h2]

/-- Every signal built by _evaluate_pair carries the id of the pair's event. -/
theorem evaluatePair_canonical_event_id (tops : List OrderBookTop) (settings : Settings)
    (e : CanonicalEvent) (poly kalshi : MarketBinding) (oc : String)
    (sig : MispricingSignal) (h : evaluatePair tops settings e poly kalshi oc = some sig) :
    sig.canonical_event_id = e.id := by
  simp only [evaluatePair] at h
  cases hq1 : getQuote tops "POLY" poly.venue_market_id oc with
  | none =>
    simp only [hq1] at h
    exact Option.noConfusion h
  | some pq =>
    cases hq2 : getQuote tops "KALSHI" kalshi.venue_market_id oc with
    | none =>
      simp only [hq1, hq2] at h
      exact Option.noConfusion h
    | some kq =>
      simp only [hq1, hq2] at h
      split_ifs at h <;> (injection h with h2; rw [← h2])

/-- C1 (counterexample): the claim requires start_time_utc strictly greater
than now + min_seconds_to_start for every created signal, but on a store whose
only event starts exactly at now + min_seconds_to_start the cycle does create
signals (the code skips only events with start < now + min_seconds_to_start). -/
theorem refresh_signals_equal_start_cex :
    refresh_signals fixtureSignalState defaultSettings 0 ≠ [] ∧
    (∀ e ∈ fixtureSignalState.events,
      ¬ (0 + defaultSettings.min_seconds_to_start < e.start_time_utc)) := by
  constructor
  · rw [refresh_signals_fixture_eval]
    simp
  · intro e he
    simp only [fixtureSignalState, List.mem_cons, List.not_mem_nil, or_false] at he
    subst he
    norm_num [fixtureEvent, defaultSettings]

/-- C1 (amended): every signal created by refresh_signals belongs to an event
whose start_time_utc is at least (not necessarily strictly greater than)
now + min_seconds_to_start at the moment the cycle runs. -/
theorem refresh_signals_start_gate (st : SignalState) (settings : Settings) (now : ℚ) :
    ∀ sig ∈ refresh_signals st settings now,
      ∃ e ∈ st.events, e.id = sig.canonical_event_id ∧
        now + settings.min_seconds_to_start ≤ e.start_time_utc := by
  intro sig hsig
  simp only [refresh_signals, List.mem_flatMap] at hsig
  obtain ⟨pair, hpair, hmem⟩ := hsig
  by_cases hlt : pair.1.start_time_utc < now + settings.min_seconds_to_start
  · rw [if_pos hlt] at hmem
    exact absurd hmem (List.not_mem_nil sig)
  · rw [if_neg hlt] at hmem
    rw [List.mem_filterMap] at hmem
    obtain ⟨oc, hoc, heval⟩ := hmem
    have hid : sig.canonical_event_id = pair.1.id :=
      evaluatePair_canonical_event_id st.tops settings pair.1 pair.2.1 pair.2.2 oc sig heval
    unfold loadBindingPairs at hpair
    rw [List.mem_filterMap] at hpair
    obtain ⟨e, he, hpe⟩ := hpair
    have hfst : pair.1 = e := pairForEvent_fst st e pair hpe
    refine ⟨pair.1, ?_, hid.symm, not_lt.mp hlt⟩
    rw [hfst]
    exact he

/-- C1 (witness): the amended gate applied to the fixture YES signal. -/
theorem refresh_signals_start_gate_witness :
    ∃ e ∈ fixtureSignalState.events, e.id = fixtureSigYES.canonical_event_id ∧
      (0 : ℚ) + defaultSettings.min_seconds_to_start ≤ e.start_time_utc :=
  refresh_signals_start_gate fixtureSignalState defaultSettings 0 fixtureSigYES
    (by rw [refresh_signals_fixture_eval]; simp)

/-- A simulated fill never has negative filled size. -/
theorem simulate_limit_fill_filled_nonneg (side : String) (limit bb ba depth req : ℚ)
    (draws : List ℚ) :
    0 ≤ (simulate_limit_fill side limit bb ba depth req draws).1.filled_size := by
  simp only [simulate_limit_fill]
  by_cases hg : (max 0 req ≤ 0 ∨ depth ≤ 0)
  · rw [if_pos hg]
  · rw [if_neg hg]
    push_neg at hg
    have hd : 0 < depth := hg.2
    split_ifs <;>
      first
        | exact le_refl 0
        | exact le_min (le_max_left 0 req) hd.le
        | exact le_min (le_max_left 0 req) (le_of_lt (mul_pos hd (by norm_num)))

/-- The code clamp min (max t 0) s and the spec clamp max 0 (min t s) are nonpositive together. -/
theorem clamp_le_iff (t s : ℚ) : min (max t 0) s ≤ 0 ↔ max 0 (min t s) ≤ 0 := by
  simp only [min_le_iff, max_le_iff, le_refl, and_true, true_and]

/-- When positive, the two clamps agree. -/
theorem clamp_pos_eq (t s : ℚ) (h : ¬ max 0 (min t s) ≤ 0) :
    min (max t 0) s = max 0 (min t s) := by
  push_neg at h
  have hx : 0 < min t s := by
    rcases lt_max_iff.mp h with h0 | h0
    · exact absurd h0 (lt_irrefl 0)
    · exact h0
  have ht2 : 0 < t := lt_of_lt_of_le hx (min_le_left t s)
  rw [max_eq_left ht2.le, max_eq_right hx.le]

/-- C7: simulate_signal raises ValueError (modelled as Except.error) exactly when the
signal id is unknown, the clamped target size max(0, min(requested, suggested)) is
nonpositive, either leg's top of book is missing, or the simulated filled size
min(buy_fill, sell_fill) is zero; otherwise it appends one position and two fills,
leaving signals and books untouched, with fill_ratio = filled/target and status OPEN. -/
theorem simulate_signal_error_iff (st : PaperState) (sid : String) (req : Option ℚ)
    (draws : List ℚ) :
    ((∃ msg, simulate_signal st sid req draws = Except.error msg) ↔
      st.signals.find? (fun s => s.id == sid) = none ∨
      (∃ s, st.signals.find? (fun s0 => s0.id == sid) = some s ∧
        (min (max (req.getD s.size_suggested) 0) s.size_suggested ≤ 0 ∨
         get_top st.tops s.buy_venue s.buy_market_id s.outcome = none ∨
         get_top st.tops s.sell_venue s.sell_market_id s.outcome = none ∨
         (∃ bt slt,
           get_top st.tops s.buy_venue s.buy_market_id s.outcome = some bt ∧
           get_top st.tops s.sell_venue s.sell_market_id s.outcome = some slt ∧
           min (simBuyFill s bt (simTarget req s) draws).1.filled_size
             (simSellFill s slt (simTarget req s)
               (simBuyFill s bt (simTarget req s) draws).2).1.filled_size = 0)))) ∧
    (∀ st2 pos s, st.signals.find? (fun s0 => s0.id == sid) = some s →
      simulate_signal st sid req draws = Except.ok (st2, pos) →
      st2.positions = st.positions ++ [pos] ∧
      (∃ f1 f2, st2.fills = st.fills ++ [f1, f2]) ∧
      st2.signals = st.signals ∧ st2.tops = st.tops ∧
      pos.fill_ratio = pos.size / min (max (req.getD s.size_suggested) 0) s.size_suggested ∧
      pos.status = "OPEN") := by
  cases hfind : st.signals.find? (fun s => s.id == sid) with
  | none =>
    have herr : simulate_signal st sid req draws = .error "signal not found" := by
      simp only [simulate_signal, hfind]
    refine ⟨iff_of_true ⟨_, herr⟩ (Or.inl rfl), ?_⟩
    intro st2 pos s hs _
    exact Option.noConfusion hs
  | some s =>
    by_cases ht : simTarget req s ≤ 0
    · have herr : simulate_signal st sid req draws = .error "size must be positive" := by
        simp only [simulate_signal, hfind, if_pos ht]
      refine ⟨iff_of_true ⟨_, herr⟩
        (Or.inr ⟨s, rfl, Or.inl
          ((clamp_le_iff (req.getD s.size_suggested) s.size_suggested).mpr ht)⟩), ?_⟩
      intro st2 pos s2 hs2 hok
      rw [herr] at hok
      exact Except.noConfusion hok
    · cases hbt : get_top st.tops s.buy_venue s.buy_market_id s.outcome with
      | none =>
        have herr : simulate_signal st sid req draws =
            .error "orderbook unavailable for simulation" := by
          simp only [simulate_signal, hfind, if_neg ht, hbt]
        refine ⟨iff_of_true ⟨_, herr⟩ (Or.inr ⟨s, rfl, Or.inr (Or.inl hbt)⟩), ?_⟩
        intro st2 pos s2 hs2 hok
        rw [herr] at hok
        exact Except.noConfusion hok
      | some bt =>
        cases hsl : get_top st.tops s.sell_venue s.sell_market_id s.outcome with
        | none =>
          have herr : simulate_signal st sid req draws =
              .error "orderbook unavailable for simulation" := by
            simp only [simulate_signal, hfind, if_neg ht, hbt, hsl]
          refine ⟨iff_of_true ⟨_, herr⟩
            (Or.inr ⟨s, rfl, Or.inr (Or.inr (Or.inl hsl))⟩), ?_⟩
          intro st2 pos s2 hs2 hok
          rw [herr] at hok
          exact Except.noConfusion hok
        | some slt =>
          by_cases hf : min (simBuyFill s bt (simTarget req s) draws).1.filled_size
              (simSellFill s slt (simTarget req s)
                (simBuyFill s bt (simTarget req s) draws).2).1.filled_size ≤ 0
          · have herr : simulate_signal st sid req draws =
                .error "simulated fills were zero" := by
              simp only [simulate_signal, hfind, if_neg ht, hbt, hsl, if_pos hf]
            have hzero : min (simBuyFill s bt (simTarget req s) draws).1.filled_size
                (simSellFill s slt (simTarget req s)
                  (simBuyFill s bt (simTarget req s) draws).2).1.filled_size = 0 :=
              le_antisymm hf (le_min
                (simulate_limit_fill_filled_nonneg "BUY" s.buy_price bt.best_bid bt.best_ask
                  bt.ask_size (simTarget req s) draws)
                (simulate_limit_fill_filled_nonneg "SELL" s.sell_price slt.best_bid
                  slt.best_ask slt.bid_size (simTarget req s)
                  (simBuyFill s bt (simTarget req s) draws).2))
            refine ⟨iff_of_true ⟨_, herr⟩
              (Or.inr ⟨s, rfl, Or.inr (Or.inr (Or.inr ⟨bt, slt, hbt, hsl, hzero⟩))⟩), ?_⟩
            intro st2 pos s2 hs2 hok
            rw [herr] at hok
            exact Except.noConfusion hok
          · have hok : simulate_signal st sid req draws = Except.ok
                ({ st with
                   positions := st.positions ++
                     [simPosition s (simBuyFill s bt (simTarget req s) draws).1
                       (simSellFill s slt (simTarget req s)
                         (simBuyFill s bt (simTarget req s) draws).2).1
                       (min (simBuyFill s bt (simTarget req s) draws).1.filled_size
                         (simSellFill s slt (simTarget req s)
                           (simBuyFill s bt (simTarget req s) draws).2).1.filled_size)
                       (simTarget req s)],
                   fills := st.fills ++
                     [simFillRecord "BUY" s.buy_price
                        (simBuyFill s bt (simTarget req s) draws).1 (simTarget req s)
                       (min (simBuyFill s bt (simTarget req s) draws).1.filled_size
                         (simSellFill s slt (simTarget req s)
                           (simBuyFill s bt (simTarget req s) draws).2).1.filled_size),
                      simFillRecord "SELL" s.sell_price
                        (simSellFill s slt (simTarget req s)
                          (simBuyFill s bt (simTarget req s) draws).2).1 (simTarget req s)
                        (min (simBuyFill s bt (simTarget req s) draws).1.filled_size
                          (simSellFill s slt (simTarget req s)
                            (simBuyFill s bt (simTarget req s) draws).2).1.filled_size)] },
                 simPosition s (simBuyFill s bt (simTarget req s) draws).1
                   (simSellFill s slt (simTarget req s)
                     (simBuyFill s bt (simTarget req s) draws).2).1
                   (min (simBuyFill s bt (simTarget req s) draws).1.filled_size
                     (simSellFill s slt (simTarget req s)
                       (simBuyFill s bt (simTarget req s) draws).2).1.filled_size)
                   (simTarget req s)) := by
              simp only [simulate_signal, hfind, if_neg ht, hbt, hsl, if_neg hf]
            constructor
            · refine iff_of_false ?_ ?_
              · rintro ⟨msg, hmsg⟩
                rw [hok] at hmsg
                exact Except.noConfusion hmsg
              · rintro (hn | ⟨s2, hs2, hcase⟩)
                · exact Option.noConfusion hn
                · injection hs2 with hs2e
                  subst hs2e
                  rcases hcase with hc | hc | hc | ⟨bt2, slt2, hbt2, hsl2, hmin⟩
                  · exact ht ((clamp_le_iff (req.getD s.size_suggested) s.size_suggested).mp hc)
                  · rw [hbt] at hc
                    exact Option.noConfusion hc
                  · rw [hsl] at hc
                    exact Option.noConfusion hc
                  · rw [hbt] at hbt2
                    injection hbt2 with he1
                    subst he1
                    rw [hsl] at hsl2
                    injection hsl2 with he2
                    subst he2
                    exact hf (le_of_eq hmin)
            · intro st2 pos s2 hs2 hok2
              injection hs2 with hs2e
              subst hs2e
              rw [hok] at hok2
              injection hok2 with hpair
              injection hpair with hA hB
              subst hA
              subst hB
              have hce := clamp_pos_eq (req.getD s.size_suggested) s.size_suggested ht
              refine ⟨rfl, ⟨_, _, rfl⟩, rfl, rfl, ?_, rfl⟩
              rw [hce]
              rfl

/-- simulate_signal evaluated on the fixture store: both legs cross and fill fully. -/
theorem simulate_signal_fixture_eval :
    simulate_signal fixtureSimState "S1" none [] = .ok (fixtureSimState2, fixtureSimPos) := by
  have hupB : pyUpper "BUY" = "BUY" := by decide
  have hupS : pyUpper "SELL" = "SELL" := by decide
  have hfind : fixtureSimState.signals.find? (fun s => s.id == "S1") =
      some fixtureSimSignal := rfl
  have ht : ¬ simTarget none fixtureSimSignal ≤ 0 := by
    simp only [simTarget, fixtureSimSignal, Option.getD_none]
    norm_num
  have hbt : get_top fixtureSimState.tops fixtureSimSignal.buy_venue
      fixtureSimSignal.buy_market_id fixtureSimSignal.outcome =
      some ⟨"POLY", "PM", "YES", 40/100, 41/100, 100, 100, 0⟩ := by
    simp only [fixtureSimState, fixtureSimSignal, get_top, fixtureTops, topMatches,
      List.find?, String.reduceBEq, Bool.and_true, Bool.true_and, Bool.and_self,
      Bool.and_false, Bool.false_and]
  have hsl : get_top fixtureSimState.tops fixtureSimSignal.sell_venue
      fixtureSimSignal.sell_market_id fixtureSimSignal.outcome =
      some ⟨"KALSHI", "KM", "YES", 60/100, 61/100, 100, 100, 0⟩ := by
    simp only [fixtureSimState, fixtureSimSignal, get_top, fixtureTops, topMatches,
      List.find?, String.reduceBEq, Bool.and_true, Bool.true_and, Bool.and_self,
      Bool.and_false, Bool.false_and]
  have hbf : simBuyFill fixtureSimSignal ⟨"POLY", "PM", "YES", 40/100, 41/100, 100, 100, 0⟩
      (simTarget none fixtureSimSignal) [] = (⟨41/100, 10, 1⟩, []) := by
    simp only [simBuyFill, simulate_limit_fill, fixtureSimSignal, hupB, simTarget,
      Option.getD_none, String.reduceEq, reduceIte]
    norm_num
  have hsf : simSellFill fixtureSimSignal ⟨"KALSHI", "KM", "YES", 60/100, 61/100, 100, 100, 0⟩
      (simTarget none fixtureSimSignal) [] = (⟨3/5, 10, 1⟩, []) := by
    simp only [simSellFill, simulate_limit_fill, fixtureSimSignal, hupS, simTarget,
      Option.getD_none, String.reduceEq, reduceIte]
    norm_num
  have hf : ¬ min ((⟨41/100, 10, 1⟩ : FillResult)).filled_size
      ((⟨3/5, 10, 1⟩ : FillResult)).filled_size ≤ 0 := by
    norm_num
  simp only [simulate_signal, hfind, if_neg ht, hbt, hsl, hbf, hsf, if_neg hf]
  norm_num [simPosition, simFillRecord, fixtureSimSignal, fixtureSimState, fixtureSimState2,
    fixtureSimPos, simTarget, Option.getD_none, min_def, max_def]

/-- C7 (witness): the success clause instantiated on the fixture run. -/
theorem simulate_signal_error_iff_witness :
    fixtureSimState2.positions = fixtureSimState.positions ++ [fixtureSimPos] ∧
    fixtureSimPos.fill_ratio = fixtureSimPos.size /
      min (max ((none : Option ℚ).getD fixtureSimSignal.size_suggested) 0)
        fixtureSimSignal.size_suggested := by
  have h := (simulate_signal_error_iff fixtureSimState "S1" none []).2 fixtureSimState2
    fixtureSimPos fixtureSimSignal rfl simulate_signal_fixture_eval
  exact ⟨h.1, h.2.2.2.2.1⟩

/-- One inner step of the scanning loop preserves the window invariant. -/
theorem flmProcessJ_inv (old : Nat → Nat) (alo blo bhi i j : Nat) (s : FlmState)
    (halo : alo ≤ i) (hj : blo ≤ j) (hjhi : j < bhi)
    (hold : ∀ m, old m ≤ i - alo ∧ old m ≤ m + 1 - blo)
    (hs : alo ≤ s.besti ∧ blo ≤ s.bestj ∧ s.besti + s.bestsize ≤ i + 1 ∧
      s.bestj + s.bestsize ≤ bhi ∧
      ∀ m, s.j2len m ≤ i + 1 - alo ∧ s.j2len m ≤ m + 1 - blo) :
    alo ≤ (flmProcessJ old i s j).besti ∧ blo ≤ (flmProcessJ old i s j).bestj ∧
      (flmProcessJ old i s j).besti + (flmProcessJ old i s j).bestsize ≤ i + 1 ∧
      (flmProcessJ old i s j).bestj + (flmProcessJ old i s j).bestsize ≤ bhi ∧
      ∀ m, (flmProcessJ old i s j).j2len m ≤ i + 1 - alo ∧
        (flmProcessJ old i s j).j2len m ≤ m + 1 - blo := by
  obtain ⟨hs1, hs2, hs3, hs4, hs5⟩ := hs
  have hk1 : (if j = 0 then 0 else old (j - 1)) + 1 ≤ i + 1 - alo := by
    by_cases h0 : j = 0
    · rw [if_pos h0]; omega
    · rw [if_neg h0]
      have := (hold (j - 1)).1
      omega
  have hk2 : (if j = 0 then 0 else old (j - 1)) + 1 ≤ j + 1 - blo := by
    by_cases h0 : j = 0
    · rw [if_pos h0]; omega
    · rw [if_neg h0]
      have := (hold (j - 1)).2
      omega
  simp only [flmProcessJ]
  by_cases hbest : s.bestsize < (if j = 0 then 0 else old (j - 1)) + 1
  · rw [if_pos hbest]
    dsimp only
    refine ⟨by omega, by omega, by omega, by omega, ?_⟩
    intro m
    by_cases hm : m = j
    · simp only [hm, if_pos rfl]
      exact ⟨hk1, hk2⟩
    · simp only [if_neg hm]
      exact hs5 m
  · rw [if_neg hbest]
    dsimp only
    refine ⟨hs1, hs2, hs3, hs4, ?_⟩
    intro m
    by_cases hm : m = j
    · simp only [hm, if_pos rfl]
      exact ⟨hk1, hk2⟩
    · simp only [if_neg hm]
      exact hs5 m

/-- Folding a row of in-window positions preserves the invariant. -/
theorem foldl_flmProcessJ_inv (old : Nat → Nat) (alo blo bhi i : Nat)
    (halo : alo ≤ i) (hold : ∀ m, old m ≤ i - alo ∧ old m ≤ m + 1 - blo)
    (js : List Nat) (s : FlmState)
    (hjs : ∀ j ∈ js, blo ≤ j ∧ j < bhi)
    (hs : alo ≤ s.besti ∧ blo ≤ s.bestj ∧ s.besti + s.bestsize ≤ i + 1 ∧
      s.bestj + s.bestsize ≤ bhi ∧
      ∀ m, s.j2len m ≤ i + 1 - alo ∧ s.j2len m ≤ m + 1 - blo) :
    alo ≤ (js.foldl (flmProcessJ old i) s).besti ∧
      blo ≤ (js.foldl (flmProcessJ old i) s).bestj ∧
      (js.foldl (flmProcessJ old i) s).besti + (js.foldl (flmProcessJ old i) s).bestsize ≤ i + 1 ∧
      (js.foldl (flmProcessJ old i) s).bestj + (js.foldl (flmProcessJ old i) s).bestsize ≤ bhi ∧
      ∀ m, (js.foldl (flmProcessJ old i) s).j2len m ≤ i + 1 - alo ∧
        (js.foldl (flmProcessJ old i) s).j2len m ≤ m + 1 - blo := by
  induction js generalizing s with
  | nil => exact hs
  | cons j rest ih =>
    simp only [List.foldl_cons]
    have hmem := hjs j (List.mem_cons_self j rest)
    exact ih _ (fun j2 hj2 => hjs j2 (List.mem_cons_of_mem j hj2))
      (flmProcessJ_inv old alo blo bhi i j s halo hmem.1 hmem.2 hold hs)

/-- A full row of the scanning loop moves the invariant from i to i + 1. -/
theorem flmRow_inv (bj : Char → List Nat) (alo blo bhi i : Nat) (s : FlmState) (c : Char)
    (h : FlmInv alo blo bhi i s) : FlmInv alo blo bhi (i + 1) (flmRow bj blo bhi s i c) := by
  obtain ⟨h0, h1, h2, h3, h4, h5⟩ := h
  simp only [flmRow, FlmInv]
  refine ⟨by omega, ?_⟩
  have hjs : ∀ j ∈ (bj c).filter (fun j => blo ≤ j && j < bhi), blo ≤ j ∧ j < bhi := by
    intro j hj
    have := List.of_mem_filter hj
    simp only [Bool.and_eq_true, decide_eq_true_eq] at this
    exact this
  have hold : ∀ m, s.j2len m ≤ i - alo ∧ s.j2len m ≤ m + 1 - blo := h5
  exact foldl_flmProcessJ_inv s.j2len alo blo bhi i h0 hold _ _ hjs
    ⟨h1, h2, (show s.besti + s.bestsize ≤ i + 1 by omega), h4,
      fun m => ⟨Nat.zero_le _, Nat.zero_le _⟩⟩

/-- The whole scanning loop keeps the invariant across count rows. -/
theorem flmRows_inv (a : List Char) (bj : Char → List Nat) (alo blo bhi : Nat) :
    ∀ (count i : Nat) (s : FlmState), FlmInv alo blo bhi i s →
      FlmInv alo blo bhi (i + count) (flmRows a bj blo bhi i count s) := by
  intro count
  induction count with
  | zero => intro i s h; simpa using h
  | succ n ih =>
    intro i s h
    simp only [flmRows]
    cases ha : a[i]? with
    | none =>
      obtain ⟨h0, h1, h2, h3, h4, h5⟩ := h
      have hgoal : FlmInv alo blo bhi (i + (n + 1)) s := by
        refine ⟨by omega, h1, h2, by omega, h4, ?_⟩
        intro m
        have := h5 m
        omega
      exact hgoal
    | some c =>
      have hrow := flmRow_inv bj alo blo bhi i s c h
      have hrec := ih (i + 1) _ hrow
      have heq : i + 1 + n = i + (n + 1) := by omega
      rw [heq] at hrec
      exact hrec

/-- The left extension loop keeps the block inside the lower window bounds and preserves both endpoint sums. -/
theorem extendLeft_bounds (a b : List Char) (alo blo : Nat) :
    ∀ (fuel : Nat) (bi bj k : Nat), alo ≤ bi → blo ≤ bj →
      alo ≤ (extendLeft a b alo blo fuel (bi, bj, k)).1 ∧
      blo ≤ (extendLeft a b alo blo fuel (bi, bj, k)).2.1 ∧
      (extendLeft a b alo blo fuel (bi, bj, k)).1 +
        (extendLeft a b alo blo fuel (bi, bj, k)).2.2 = bi + k ∧
      (extendLeft a b alo blo fuel (bi, bj, k)).2.1 +
        (extendLeft a b alo blo fuel (bi, bj, k)).2.2 = bj + k := by
  intro fuel
  induction fuel with
  | zero => intro bi bj k h1 h2; exact ⟨h1, h2, rfl, rfl⟩
  | succ n ih =>
    intro bi bj k h1 h2
    simp only [extendLeft]
    by_cases hc : alo < bi ∧ blo < bj ∧ charsEq a[bi - 1]? b[bj - 1]? = true
    · rw [if_pos hc]
      have := ih (bi - 1) (bj - 1) (k + 1) (by omega) (by omega)
      refine ⟨this.1, this.2.1, ?_, ?_⟩ <;> omega
    · rw [if_neg hc]
      exact ⟨h1, h2, rfl, rfl⟩

/-- The right extension loop keeps the block end within the upper window bounds. -/
theorem extendRight_bounds (a b : List Char) (ahi bhi : Nat) :
    ∀ (fuel : Nat) (bi bj k : Nat), bi + k ≤ ahi → bj + k ≤ bhi →
      (extendRight a b ahi bhi fuel (bi, bj, k)).1 = bi ∧
      (extendRight a b ahi bhi fuel (bi, bj, k)).2.1 = bj ∧
      bi + (extendRight a b ahi bhi fuel (bi, bj, k)).2.2 ≤ ahi ∧
      bj + (extendRight a b ahi bhi fuel (bi, bj, k)).2.2 ≤ bhi := by
  intro fuel
  induction fuel with
  | zero => intro bi bj k h1 h2; exact ⟨rfl, rfl, h1, h2⟩
  | succ n ih =>
    intro bi bj k h1 h2
    simp only [extendRight]
    by_cases hc : bi + k < ahi ∧ bj + k < bhi ∧
        charsEq a[bi + k]? b[bj + k]? = true
    · rw [if_pos hc]
      exact ih bi bj (k + 1) (by omega) (by omega)
    · rw [if_neg hc]
      exact ⟨rfl, rfl, h1, h2⟩

/-- find_longest_match returns a block lying inside the requested window. -/
theorem findLongestMatch_bounds (a b : List Char) (bj : Char → List Nat)
    (alo ahi blo bhi : Nat) (ha : alo ≤ ahi) (hb : blo ≤ bhi) :
    alo ≤ (findLongestMatch a b bj alo ahi blo bhi).1 ∧
    blo ≤ (findLongestMatch a b bj alo ahi blo bhi).2.1 ∧
    (findLongestMatch a b bj alo ahi blo bhi).1 +
      (findLongestMatch a b bj alo ahi blo bhi).2.2 ≤ ahi ∧
    (findLongestMatch a b bj alo ahi blo bhi).2.1 +
      (findLongestMatch a b bj alo ahi blo bhi).2.2 ≤ bhi := by
  have hinit : FlmInv alo blo bhi alo ⟨alo, blo, 0, fun _ => 0⟩ :=
    ⟨le_refl alo, le_refl alo, le_refl blo, (show alo + 0 ≤ alo by omega),
      (show blo + 0 ≤ bhi by omega), fun m => ⟨Nat.zero_le _, Nat.zero_le _⟩⟩
  have hrows := flmRows_inv a bj alo blo bhi (ahi - alo) alo _ hinit
  have heq : alo + (ahi - alo) = ahi := by omega
  rw [heq] at hrows
  obtain ⟨_, h1, h2, h3, h4, _⟩ := hrows
  simp only [findLongestMatch]
  set s := flmRows a bj blo bhi alo (ahi - alo) ⟨alo, blo, 0, fun _ => 0⟩ with hs
  have hL := extendLeft_bounds a b alo blo s.besti s.besti s.bestj s.bestsize h1 h2
  set st1 := extendLeft a b alo blo s.besti (s.besti, s.bestj, s.bestsize) with hst1
  have hR := extendRight_bounds a b ahi bhi ahi st1.1 st1.2.1 st1.2.2
    (by omega) (by omega)
  have hmk : (st1.1, st1.2.1, st1.2.2) = st1 := rfl
  rw [hmk] at hR
  exact ⟨by omega, by omega, by omega, by omega⟩

/-- The total size of the matching blocks never exceeds either window length. -/
theorem matchesTotal_le (a b : List Char) (bj : Char → List Nat) :
    ∀ (fuel alo ahi blo bhi : Nat), alo ≤ ahi → blo ≤ bhi →
      matchesTotal a b bj fuel alo ahi blo bhi ≤ min (ahi - alo) (bhi - blo) := by
  intro fuel
  induction fuel with
  | zero =>
    intro alo ahi blo bhi ha hb
    simp [matchesTotal]
  | succ n ih =>
    intro alo ahi blo bhi ha hb
    have hbnd := findLongestMatch_bounds a b bj alo ahi blo bhi ha hb
    rcases he : findLongestMatch a b bj alo ahi blo bhi with ⟨i, j, k⟩
    rw [he] at hbnd
    dsimp only at hbnd
    obtain ⟨h1, h2, h3, h4⟩ := hbnd
    simp only [matchesTotal, he]
    by_cases hk : k = 0
    · rw [if_pos hk]
      exact Nat.zero_le _
    · rw [if_neg hk]
      by_cases hL : alo < i ∧ blo < j
      · by_cases hR : i + k < ahi ∧ j + k < bhi
        · rw [if_pos hL, if_pos hR]
          have hLe := ih alo i blo j (by omega) (by omega)
          have hRe := ih (i + k) ahi (j + k) bhi (by omega) (by omega)
          omega
        · rw [if_pos hL, if_neg hR]
          have hLe := ih alo i blo j (by omega) (by omega)
          omega
      · by_cases hR : i + k < ahi ∧ j + k < bhi
        · rw [if_neg hL, if_pos hR]
          have hRe := ih (i + k) ahi (j + k) bhi (by omega) (by omega)
          omega
        · rw [if_neg hL, if_neg hR]
          omega

/-- SequenceMatcher.ratio always lies in [0, 1]. -/
theorem seqRatio_range (x y : List Char) : 0 ≤ seqRatio x y ∧ seqRatio x y ≤ 1 := by
  simp only [seqRatio]
  by_cases h : x.length + y.length = 0
  · rw [if_pos h]
    norm_num
  · rw [if_neg h]
    have hm := matchesTotal_le x y (b2j y) (x.length + y.length + 1) 0 x.length 0 y.length
      (Nat.zero_le _) (Nat.zero_le _)
    have h2m : 2 * matchesTotal x y (b2j y) (x.length + y.length + 1) 0 x.length 0 y.length
        ≤ x.length + y.length := by omega
    have hpos : (0:ℚ) < ((x.length + y.length : ℕ) : ℚ) := by
      exact_mod_cast Nat.pos_of_ne_zero h
    constructor
    · positivity
    · rw [div_le_one hpos]
      exact_mod_cast h2m

/-- C9: token_set_similarity always lies in [0, 1], and returns 0 whenever either
string has an empty token set.  (The symmetry half of the claim is refuted by a
separate counterexample: difflib ratios are order-dependent.) -/
theorem token_set_similarity_range (a b : String) :
    0 ≤ token_set_similarity a b ∧ token_set_similarity a b ≤ 1 ∧
      ((tokenize a = [] ∨ tokenize b = []) → token_set_similarity a b = 0) := by
  simp only [token_set_similarity]
  by_cases h : ((tokenize a).dedup.isEmpty || (tokenize b).dedup.isEmpty) = true
  · rw [if_pos h]
    exact ⟨le_refl 0, by norm_num, fun _ => rfl⟩
  · rw [if_neg h]
    refine ⟨?_, ?_, ?_⟩
    · exact le_trans (seqRatio_range _ _).1 (le_max_left _ _)
    · exact max_le (seqRatio_range _ _).2 (max_le (seqRatio_range _ _).2 (seqRatio_range _ _).2)
    · intro hemp
      exfalso
      apply h
      rcases hemp with h0 | h0 <;> simp [h0]

/-- C9 (witness): the range bounds and the empty-token-set clause on concrete strings. -/
theorem token_set_similarity_range_witness :
    0 ≤ token_set_similarity "Arsenal" "" ∧ token_set_similarity "Arsenal" "" ≤ 1 ∧
      token_set_similarity "Arsenal" "" = 0 :=
  ⟨(token_set_similarity_range "Arsenal" "").1, (token_set_similarity_range "Arsenal" "").2.1,
    (token_set_similarity_range "Arsenal" "").2.2 (Or.inr rfl)⟩

/-- C9 (counterexample): token_set_similarity is not symmetric; on the one-token
strings "abcb" and "bcab" the two orders give 1/2 and 3/4. -/
theorem token_set_similarity_symm_cex :
    token_set_similarity "abcb" "bcab" = 1/2 ∧ token_set_similarity "bcab" "abcb" = 3/4 ∧
      token_set_similarity "abcb" "bcab" ≠ token_set_similarity "bcab" "abcb" := by
  have e1 : token_set_similarity "abcb" "bcab" =
      max (2 * ((0:ℕ):ℚ) / ((4:ℕ):ℚ)) (max (2 * ((0:ℕ):ℚ) / ((4:ℕ):ℚ))
        (2 * ((2:ℕ):ℚ) / ((8:ℕ):ℚ))) := rfl
  have e2 : token_set_similarity "bcab" "abcb" =
      max (2 * ((0:ℕ):ℚ) / ((4:ℕ):ℚ)) (max (2 * ((0:ℕ):ℚ) / ((4:ℕ):ℚ))
        (2 * ((3:ℕ):ℚ) / ((8:ℕ):ℚ))) := rfl
  have v1 : token_set_similarity "abcb" "bcab" = 1/2 := by
    rw [e1]
    norm_num [max_def]
  have v2 : token_set_similarity "bcab" "abcb" = 3/4 := by
    rw [e2]
    norm_num [max_def]
  refine ⟨v1, v2, ?_⟩
  rw [v1, v2]
  norm_num

end ArbBot
